import Mathlib

/-!
Verification of the core algorithms of the opencode-tmux plugin.

Each definition below is a shallow embedding of a function of the
TypeScript sources (file and line references are given next to each
definition).  JavaScript numbers are modelled as `Nat`/`Int` with the
16-bit truncations of the checksum written out as `% 65536`; JavaScript
promises are modelled as identifiers mapped to their eventual resolution;
the single-threaded cooperative scheduler is modelled as an explicit
small-step machine whose events are the points where the code suspends
on an `await`.
-/

namespace OpencodeTmux

/-! ## Column distribution (src/layout.ts) -/

/-- JavaScript `Math.ceil(a / b)` for nonnegative integers `a` and positive `b`. -/
def ceilNat (a b : Nat) : Nat := (a + b - 1) / b

/-- Embedding of `computeColumnCount` (src/layout.ts lines 27-38).
The `throw new Error(..)` is modelled as `Except.error`.
Note that the `totalAgents <= 0` test comes first in the source, so a
nonpositive `maxAgentsPerColumn` is only rejected when `totalAgents` is
positive. -/
def computeColumnCount (totalAgents maxAgentsPerColumn : Int) : Except String Nat :=
  if totalAgents ≤ 0 then
    Except.ok 0
  else if maxAgentsPerColumn ≤ 0 then
    Except.error "maxAgentsPerColumn must be positive"
  else
    Except.ok (ceilNat totalAgents.toNat maxAgentsPerColumn.toNat)

/-- Embedding of the `ColumnDistribution` record (src/layout.ts lines 11-16). -/
structure ColumnDistribution where
  numColumns : Nat
  columnAssignments : List Nat
deriving Repr, DecidableEq

/-- Embedding of `distributeAgentsRoundRobin` (src/layout.ts lines 58-74):
agent `i` is assigned to column `i % numColumns`. -/
def distributeAgentsRoundRobin (agentCount maxAgentsPerColumn : Int) :
    Except String ColumnDistribution :=
  match computeColumnCount agentCount maxAgentsPerColumn with
  | Except.error e => Except.error e
  | Except.ok numColumns =>
    if numColumns = 0 then
      Except.ok ⟨0, []⟩
    else
      Except.ok ⟨numColumns, (List.range agentCount.toNat).map (fun i => i % numColumns)⟩

/-- One iteration of the push loop of `groupAgentsByColumn`
(src/layout.ts line 100): `columns[columnIndex].push(agentIds[i])`. -/
def pushAt {α : Type} (cols : List (List α)) (j : Nat) (a : α) : List (List α) :=
  cols.set j (cols.getD j [] ++ [a])

/-- The loop of `groupAgentsByColumn` (src/layout.ts lines 98-101).
The source reads `columnAssignments[i]`, which equals `i % numColumns`
by construction in `distributeAgentsRoundRobin`; the index `i` is the
second argument. -/
def groupGo {α : Type} (k : Nat) : List α → Nat → List (List α) → List (List α)
  | [], _, cols => cols
  | a :: rest, i, cols => groupGo k rest (i + 1) (pushAt cols (i % k) a)

/-- Embedding of `groupAgentsByColumn` (src/layout.ts lines 83-104). -/
def groupAgentsByColumn {α : Type} (agentIds : List α) (maxAgentsPerColumn : Int) :
    Except String (List (List α)) :=
  match distributeAgentsRoundRobin (agentIds.length : Int) maxAgentsPerColumn with
  | Except.error e => Except.error e
  | Except.ok d =>
    if d.numColumns = 0 then
      Except.ok []
    else
      Except.ok (groupGo d.numColumns agentIds 0 (List.replicate d.numColumns []))

/-- Embedding of `mainPanePercentForColumns` (src/layout.ts lines 118-122). -/
def mainPanePercentForColumns (numColumns : Nat) : Nat :=
  if numColumns ≤ 1 then 60 else if numColumns = 2 then 45 else 30

/-! ## Checksums (src/layout.ts lines 124-131 and src/utils/layout.ts lines 125-134) -/

/-- One character of `layoutChecksum` (src/layout.ts lines 127-128):
`csum = (csum >> 1) + ((csum & 1) << 15); csum = (csum + code) & 0xffff;`.
The truncation to 16 bits happens after every character. -/
def layoutChecksumStep (csum : Nat) (c : Char) : Nat :=
  ((csum / 2 + csum % 2 * 32768) + c.toNat) % 65536

/-- Embedding of `layoutChecksum` (src/layout.ts lines 124-131). -/
def layoutChecksum (layout : String) : Nat :=
  layout.data.foldl layoutChecksumStep 0

/-- Modelled from the spec: one step of the checksum recurrence
`csum = (csum>>1 | (csum&1)<<15) + byte`, truncated to 16 bits per
character, as written in section 4.4 of the specification. -/
def specChecksumStep (csum : Nat) (c : Char) : Nat :=
  ((csum / 2 ||| csum % 2 * 32768) + c.toNat) % 65536

/-- Modelled from the spec: the 16-bit running checksum of a string,
applying `specChecksumStep` to every character. -/
def specChecksum (s : String) : Nat :=
  s.data.foldl specChecksumStep 0

/-- The accumulation loop of `withChecksum` (src/utils/layout.ts lines
126-131): unlike `layoutChecksum`, the sum is NOT truncated inside the
loop; `csum = csum & 0xffff` is applied once after the loop (line 132). -/
def withChecksumAcc (s : String) : Nat :=
  s.data.foldl (fun csum c => (csum / 2 + csum % 2 * 32768) + c.toNat) 0

/-- JavaScript `n.toString(16)`: lowercase hexadecimal, no padding.
`Nat.toDigits 16` produces exactly the lowercase digits, and `"0"` for 0. -/
def natToHex (n : Nat) : String :=
  String.mk (Nat.toDigits 16 n)

/-- JavaScript `s.padStart(4, c)`. -/
def padStart4 (s : String) (c : Char) : String :=
  if 4 ≤ s.length then s else String.mk (List.replicate (4 - s.length) c) ++ s

/-- Embedding of `withChecksum` (src/utils/layout.ts lines 125-134):
`csum.toString(16).toLowerCase()` with NO zero padding, prefixed to the
layout with a comma. -/
def withChecksum (layout : String) : String :=
  natToHex (withChecksumAcc layout % 65536) ++ "," ++ layout

/-! ## Layout tree rendering (src/layout.ts lines 106-262) -/

/-- Embedding of the `LayoutCell` record (src/layout.ts lines 108-116);
the `type` tag is the constructor, `wpId` is optional, and only the two
split constructors carry children (the source leaves `children`
undefined on window panes, and `dumpLayoutCell` reads `children ?? []`). -/
inductive LayoutCell where
  | windowpane (sx sy xoff yoff : Int) (wpId : Option Int)
  | leftright (sx sy xoff yoff : Int) (wpId : Option Int) (children : List LayoutCell)
  | topbottom (sx sy xoff yoff : Int) (wpId : Option Int) (children : List LayoutCell)
deriving Repr

/-- The `base` string of `dumpLayoutCell` (src/layout.ts lines 134-137):
`sx x sy , xoff , yoff [, wpId]`. -/
def dumpBase (sx sy xoff yoff : Int) (wpId : Option Int) : String :=
  toString sx ++ "x" ++ toString sy ++ "," ++ toString xoff ++ "," ++ toString yoff ++
    (match wpId with
     | some i => "," ++ toString i
     | none => "")

mutual

/-- Embedding of `dumpLayoutCell` (src/layout.ts lines 133-147):
`LEFTRIGHT` children in braces, `TOPBOTTOM` children in brackets,
children joined by commas. -/
def dumpLayoutCell : LayoutCell → String
  | LayoutCell.windowpane sx sy xoff yoff wpId => dumpBase sx sy xoff yoff wpId
  | LayoutCell.leftright sx sy xoff yoff wpId children =>
      dumpBase sx sy xoff yoff wpId ++ "\x7b" ++ dumpCells children ++ "\x7d"
  | LayoutCell.topbottom sx sy xoff yoff wpId children =>
      dumpBase sx sy xoff yoff wpId ++ "[" ++ dumpCells children ++ "]"

/-- JavaScript `children.map(dumpLayoutCell).join(",")`. -/
def dumpCells : List LayoutCell → String
  | [] => ""
  | [c] => dumpLayoutCell c
  | c :: c2 :: rest => dumpLayoutCell c ++ "," ++ dumpCells (c2 :: rest)

end

/-- Embedding of `splitSizes` (src/layout.ts lines 149-161): divide
`total` cells over `count` children leaving `count - 1` separator lines,
remainder going to the earlier children. -/
def splitSizes (total : Int) (count : Nat) : List Int :=
  if count = 0 then []
  else
    let separators : Nat := count - 1
    let available : Nat := (max 0 (total - (separators : Int))).toNat
    let base : Nat := available / count
    let remainder : Nat := available - base * count
    (List.range count).map (fun i => ((base + if i < remainder then 1 else 0 : Nat) : Int))

/-- The rows of one multi-pane column of
`buildMainVerticalMultiColumnLayoutString` (src/layout.ts lines 210-223),
one window pane per row with a one-line separator between rows. -/
def buildRowCells (colWidth xoff : Int) : List Int → List Int → Int → List LayoutCell
  | [], _, _ => []
  | wpId :: wps, hs, yoff =>
    let h := hs.headD 0
    LayoutCell.windowpane colWidth h xoff yoff (some wpId) ::
      buildRowCells colWidth xoff wps (hs.drop 1) (yoff + h + 1)

/-- The column cells of `buildMainVerticalMultiColumnLayoutString`
(src/layout.ts lines 193-236): a single-pane column is a window pane,
a multi-pane column is a `TOPBOTTOM` split. -/
def buildColumnCells (windowHeight : Int) : List (List Int) → List Int → Int → List LayoutCell
  | [], _, _ => []
  | colPaneIds :: cols, ws, xoff =>
    let colWidth := ws.headD 0
    let cell :=
      match colPaneIds with
      | [wpId] => LayoutCell.windowpane colWidth windowHeight xoff 0 (some wpId)
      | _ =>
        LayoutCell.topbottom colWidth windowHeight xoff 0 none
          (buildRowCells colWidth xoff colPaneIds (splitSizes windowHeight colPaneIds.length) 0)
    cell :: buildColumnCells windowHeight cols (ws.drop 1) (xoff + colWidth + 1)

/-- Parameters of `buildMainVerticalMultiColumnLayoutString`
(src/layout.ts lines 163-169). -/
structure MainVerticalParams where
  windowWidth : Int
  windowHeight : Int
  mainPaneWpId : Int
  columns : List (List Int)
  mainPanePercent : Int

/-- The layout tree body of `buildMainVerticalMultiColumnLayoutString`
(src/layout.ts lines 170-259), up to and including `dumpLayoutCell(root)`. -/
def buildMainVerticalBody (p : MainVerticalParams) : String :=
  let numColumns := p.columns.length
  let clampedPercent := max 30 (min 80 p.mainPanePercent)
  let desiredMainWidth := (p.windowWidth * clampedPercent).fdiv 100
  let mainWidth := max 0 (min (p.windowWidth - 2) desiredMainWidth)
  let rightWidth := max 0 (p.windowWidth - mainWidth - 1)
  let mainCell := LayoutCell.windowpane mainWidth p.windowHeight 0 0 (some p.mainPaneWpId)
  let rightXoff := mainWidth + 1
  let colWidths := splitSizes rightWidth numColumns
  let columnCells := buildColumnCells p.windowHeight p.columns colWidths rightXoff
  let rightCell :=
    match columnCells with
    | [c] => c
    | cs => LayoutCell.leftright rightWidth p.windowHeight rightXoff 0 none cs
  let root := LayoutCell.leftright p.windowWidth p.windowHeight 0 0 none [mainCell, rightCell]
  dumpLayoutCell root

/-- Embedding of `buildMainVerticalMultiColumnLayoutString`
(src/layout.ts lines 163-262).  The `throw new Error(..)` for an empty
column list is `Except.error`; otherwise the result is the
per-character-truncated checksum, padded with `padStart(4, "0")`,
prefixed to the dumped tree (lines 259-261). -/
def buildMainVerticalMultiColumnLayoutString (p : MainVerticalParams) :
    Except String String :=
  if p.columns.length = 0 then
    Except.error "columns must be non-empty"
  else
    let layout := buildMainVerticalBody p
    Except.ok (padStart4 (natToHex (layoutChecksum layout)) '0' ++ "," ++ layout)

/-! ## generateLayoutString (src/utils/layout.ts) -/

/-- Embedding of `formatNode` (src/utils/layout.ts lines 121-123). -/
def formatNode (w h x y : Int) (id : String) : String :=
  toString w ++ "x" ++ toString h ++ "," ++ toString x ++ "," ++ toString y ++ "," ++ id

/-- JavaScript `parts.join(",")`. -/
def joinComma : List String → String
  | [] => ""
  | [s] => s
  | s :: s2 :: rest => s ++ "," ++ joinComma (s2 :: rest)

/-- The row loop of `buildColumn` (src/utils/layout.ts lines 104-115):
every row except the last gets `rowHeight`; the last row absorbs the
remaining height `height - (currentY - y)`. -/
def buildColumnRows (width x y height rowHeight : Int) : List String → Int → List String
  | [], _ => []
  | [p], currentY => [formatNode width (height - (currentY - y)) x currentY p]
  | p :: p2 :: rest, currentY =>
      formatNode width rowHeight x currentY p ::
        buildColumnRows width x y height rowHeight (p2 :: rest) (currentY + rowHeight)

/-- Embedding of `buildColumn` (src/utils/layout.ts lines 98-119). -/
def buildColumn (width height x y : Int) (paneIds : List String) : String :=
  match paneIds with
  | [] => ""
  | [p] => formatNode width height x y p
  | ps =>
    let rowHeight := height.fdiv (ps.length : Int)
    toString width ++ "x" ++ toString height ++ "," ++ toString x ++ "," ++ toString y ++
      "[" ++ joinComma (buildColumnRows width x y height rowHeight ps y) ++ "]"

/-- The column loop of `generateLayoutString` (src/utils/layout.ts lines
58-78).  The first argument is the number of columns still to build
(`numCols - c`), so `colsLeft = 0` inside the body marks the last
column, which takes `width - currentX` instead of `colWidth`. -/
def generateColumns (width height colWidth : Int) (limit : Nat) (clean : List String) :
    Nat → Int → Nat → Nat → List String
  | 0, _, _, _ => []
  | colsLeft + 1, currentX, remainingAgents, agentsProcessed =>
    let isLastCol := colsLeft = 0
    let thisColWidth := if isLastCol then width - currentX else colWidth
    let agentsInThisCol := min remainingAgents limit
    let colPaneIds := (clean.drop agentsProcessed).take agentsInThisCol
    buildColumn thisColWidth height currentX 0 colPaneIds ::
      generateColumns width height colWidth limit clean colsLeft
        (currentX + thisColWidth) (remainingAgents - agentsInThisCol)
        (agentsProcessed + agentsInThisCol)

/-- Parameters of `generateLayoutString` (src/utils/layout.ts lines 1-8). -/
structure LayoutParams where
  width : Int
  height : Int
  mainPaneSizePercent : Int
  paneIds : List String
  mainPaneId : String
  maxAgentsPerColumn : Int

/-- The per-column limit of `generateLayoutString` (src/utils/layout.ts
line 46): a nonpositive `maxAgentsPerColumn` is treated as unlimited,
i.e. the limit becomes the number of subagents (a single column). -/
def generateLimit (maxAgentsPerColumn : Int) (numSubagents : Nat) : Nat :=
  if 0 < maxAgentsPerColumn then maxAgentsPerColumn.toNat else numSubagents

/-- Embedding of `generateLayoutString` (src/utils/layout.ts lines 10-96). -/
def generateLayoutString (p : LayoutParams) : String :=
  let clean := p.paneIds.filter (fun id => id ≠ p.mainPaneId)
  if p.width ≤ 0 ∨ p.height ≤ 0 then ""
  else
    let mainPaneWidth := (p.width * p.mainPaneSizePercent).fdiv 100
    let subagentAreaWidth := p.width - mainPaneWidth
    match clean with
    | [] => withChecksum (formatNode p.width p.height 0 0 p.mainPaneId)
    | _ =>
      let mainNode := formatNode mainPaneWidth p.height 0 0 p.mainPaneId
      let numSubagents := clean.length
      let limit := generateLimit p.maxAgentsPerColumn numSubagents
      let numCols := ceilNat numSubagents limit
      let colWidth := subagentAreaWidth.fdiv (numCols : Int)
      let columns := generateColumns p.width p.height colWidth limit clean
        numCols mainPaneWidth numSubagents 0
      let subagentAreaNode :=
        match columns with
        | [c] => c
        | cs =>
          toString subagentAreaWidth ++ "x" ++ toString p.height ++ "," ++
            toString mainPaneWidth ++ ",0\x7b" ++ joinComma cs ++ "\x7d"
      let rootLayout :=
        toString p.width ++ "x" ++ toString p.height ++ ",0,0\x7b" ++ mainNode ++ "," ++
          subagentAreaNode ++ "\x7d"
      withChecksum rootLayout

/-! ## The spawn queue (src/spawn-queue.ts)

The queue is driven by the single-threaded cooperative scheduler: each
synchronous segment between two `await` points is one step of the
machine below.  Promises are modelled by identifiers; `resolved` maps a
promise identifier to the result its callers observe (a JavaScript
promise can only be resolved once, so a second resolution is a no-op). -/

/-- Embedding of the `SpawnResult` record (src/spawn-queue.ts lines 121-124). -/
structure SpawnResult where
  success : Bool
  paneId : Option String
deriving Repr, DecidableEq

/-- Embedding of the `SpawnRequest` record (src/spawn-queue.ts lines 126-131). -/
structure SpawnRequest where
  sessionId : String
  title : String
  timestamp : Nat
  retryCount : Nat
deriving Repr, DecidableEq

/-- The numeric options of the queue with their defaults
(src/spawn-queue.ts lines 153-154 and 180-182). -/
structure SQConfig where
  spawnDelayMs : Nat := 300
  maxRetries : Nat := 2
  staleThresholdMs : Nat := 30000
deriving Repr

/-- Embedding of the `QueueItem` record (src/spawn-queue.ts lines
146-151); the captured `resolve` callback is the promise identifier. -/
structure QueueItem where
  sessionId : String
  title : String
  enqueuedAt : Nat
  promiseId : Nat
deriving Repr, DecidableEq

/-- The await point the processing loop is currently suspended on:
`idle` means `isProcessing` is false, `awaitingSpawn` is the `await
this.spawnFn(request)` of line 350, `awaitingBackoff` the backoff delay
of line 372, and `awaitingDelay` the inter-item delay of line 315. -/
inductive Suspension where
  | idle
  | awaitingSpawn (item : QueueItem) (retryCount : Nat)
  | awaitingBackoff (item : QueueItem) (retryCount : Nat) (lastResult : SpawnResult)
  | awaitingDelay
deriving Repr, DecidableEq

/-- The state of a `SpawnQueue` instance (src/spawn-queue.ts lines
156-176) together with observation logs: `updates` records each
`onQueueUpdate` call as (the argument passed, the value of
`getPendingCount()` at that moment), `drainedEvents` counts
`onQueueDrained` calls, `spawnStarts` records each invocation of the
injected `spawnFn`, and `enqueueReturns` records the promise returned
by each `enqueue` call. -/
structure SQState where
  queue : List QueueItem
  pending : List (String × Nat)
  resolved : List (Nat × SpawnResult)
  isProcessing : Bool
  hasItemInFlight : Bool
  isShutdown : Bool
  nextPromiseId : Nat
  susp : Suspension
  updates : List (Nat × Nat)
  drainedEvents : Nat
  spawnStarts : List SpawnRequest
  enqueueReturns : List (String × Nat)
deriving Repr, DecidableEq

/-- JavaScript `Map.delete` on the pending-promise map. -/
def mapErase (m : List (String × Nat)) (k : String) : List (String × Nat) :=
  m.filter (fun kv => kv.1 ≠ k)

/-- Resolution of a promise: a JavaScript promise keeps the first value
it was resolved with, so resolving an already-resolved promise changes
nothing. -/
def resolvePromise (resolved : List (Nat × SpawnResult)) (pid : Nat) (r : SpawnResult) :
    List (Nat × SpawnResult) :=
  match resolved.lookup pid with
  | some _ => resolved
  | none => (pid, r) :: resolved

/-- Embedding of `getPendingCount` (src/spawn-queue.ts lines 237-239). -/
def getPendingCount (s : SQState) : Nat :=
  s.queue.length + (if s.hasItemInFlight then 1 else 0)

/-- Embedding of `notifyQueueUpdate` (src/spawn-queue.ts lines 275-277):
the argument passed to `onQueueUpdate` is `this.queue.length`.  The
second component of the logged pair is the ghost observation
`getPendingCount()` at the same moment. -/
def notifyQueueUpdate (s : SQState) : SQState :=
  { s with updates := s.updates ++ [(s.queue.length, getPendingCount s)] }

/-- Embedding of `notifyQueueDrained` (src/spawn-queue.ts lines 324-329). -/
def notifyQueueDrained (s : SQState) : SQState :=
  if s.queue = [] ∧ ¬s.hasItemInFlight then
    { s with drainedEvents := s.drainedEvents + 1 }
  else s

/-- Exit of the processing loop (src/spawn-queue.ts lines 319-321):
`notifyQueueUpdate(); notifyQueueDrained(); isProcessing = false`. -/
def exitLoop (s : SQState) : SQState :=
  let s := notifyQueueUpdate s
  let s := notifyQueueDrained s
  { s with isProcessing := false, susp := Suspension.idle }

/-- Completion of one item (src/spawn-queue.ts lines 310-316):
`item.resolve(result)`, `pendingPromises.delete`, clear the in-flight
flag, then either suspend on the inter-item delay (when more work is
queued and the queue is not shut down) or fall through to the loop exit. -/
def finishItem (item : QueueItem) (r : SpawnResult) (s : SQState) : SQState :=
  let s := { s with
    resolved := resolvePromise s.resolved item.promiseId r,
    pending := mapErase s.pending item.sessionId,
    hasItemInFlight := false }
  if s.queue ≠ [] ∧ ¬s.isShutdown then
    { s with susp := Suspension.awaitingDelay }
  else exitLoop s

/-- The stale-item branch (src/spawn-queue.ts lines 292-302): resolve as
failure without executing, delete from the pending map, clear the
in-flight flag, and continue the loop. -/
def staleSkip (item : QueueItem) (s : SQState) : SQState :=
  { s with
    resolved := resolvePromise s.resolved item.promiseId ⟨false, none⟩,
    pending := mapErase s.pending item.sessionId,
    hasItemInFlight := false }

/-- Start of one spawn attempt (src/spawn-queue.ts lines 335-350): the
`SpawnRequest` is built from the item and the attempt counter, `spawnFn`
is invoked, and the loop suspends on its promise. -/
def startAttempt (item : QueueItem) (retryCount : Nat) (s : SQState) : SQState :=
  { s with
    spawnStarts := s.spawnStarts ++ [⟨item.sessionId, item.title, item.enqueuedAt, retryCount⟩],
    susp := Suspension.awaitingSpawn item retryCount }

/-- The head of the `processQueue` while loop (src/spawn-queue.ts lines
286-309), executed synchronously until the loop either starts a spawn
attempt (suspending on `await spawnFn`) or exits.  `fuel` is an upper
bound on the queue length (each iteration shifts one item, so the
length itself suffices); the loop guard `queue.length > 0 &&
!isShutdown` is re-checked on every iteration. -/
def loopHead (cfg : SQConfig) (now : Nat) : Nat → SQState → SQState
  | 0, s => exitLoop s
  | fuel + 1, s =>
    match s.queue with
    | [] => exitLoop s
    | item :: rest =>
      if s.isShutdown then exitLoop s
      else
        let s := notifyQueueUpdate { s with queue := rest, hasItemInFlight := true }
        if now - item.enqueuedAt > cfg.staleThresholdMs then
          loopHead cfg now fuel (staleSkip item s)
        else startAttempt item 0 s

/-- Run `processQueue` from its entry (src/spawn-queue.ts lines 279-284):
a re-entrant or post-shutdown call returns immediately; otherwise
`isProcessing` is set and the loop runs. -/
def processQueueStart (cfg : SQConfig) (now : Nat) (s : SQState) : SQState :=
  if s.isProcessing ∨ s.isShutdown then s
  else loopHead cfg now s.queue.length { s with isProcessing := true }

/-- Embedding of `enqueue` (src/spawn-queue.ts lines 194-235).  After
shutdown a fresh, already-failed promise is returned without touching
the queue (line 198); an ownerKey already pending returns the existing
promise unchanged (lines 201-209); otherwise a fresh promise and queue
item are created, `onQueueUpdate` fires, and `processQueue` is kicked
off synchronously up to its first await. -/
def enqueueStep (cfg : SQConfig) (now : Nat) (sessionId title : String) (s : SQState) :
    SQState × Nat :=
  if s.isShutdown then
    let pid := s.nextPromiseId
    ({ s with
        nextPromiseId := pid + 1,
        resolved := resolvePromise s.resolved pid ⟨false, none⟩,
        enqueueReturns := s.enqueueReturns ++ [(sessionId, pid)] }, pid)
  else
    match s.pending.lookup sessionId with
    | some pid =>
      ({ s with enqueueReturns := s.enqueueReturns ++ [(sessionId, pid)] }, pid)
    | none =>
      let pid := s.nextPromiseId
      let item : QueueItem := ⟨sessionId, title, now, pid⟩
      let s := { s with
        nextPromiseId := pid + 1,
        pending := (sessionId, pid) :: s.pending,
        queue := s.queue ++ [item],
        enqueueReturns := s.enqueueReturns ++ [(sessionId, pid)] }
      let s := notifyQueueUpdate s
      (processQueueStart cfg now s, pid)

/-- One iteration of the shutdown drain loop (src/spawn-queue.ts lines
255-262): resolve the shifted item as failure and delete it from the
pending-promise map. -/
def shutdownDrainItem (t : SQState) (item : QueueItem) : SQState :=
  { t with
    resolved := resolvePromise t.resolved item.promiseId ⟨false, none⟩,
    pending := mapErase t.pending item.sessionId }

/-- Embedding of `shutdown` (src/spawn-queue.ts lines 244-266): set the
flag, resolve every queued item as failure in shift order and delete it
from the pending map, then fire `onQueueUpdate` once (the queue is empty
by then; any in-flight item is untouched). -/
def shutdownStep (s : SQState) : SQState :=
  if s.isShutdown then s
  else
    let s2 := s.queue.foldl shutdownDrainItem { s with isShutdown := true, queue := [] }
    notifyQueueUpdate s2

/-- Settling of `await this.spawnFn(request)` (src/spawn-queue.ts line
350); a thrown exception is caught and becomes `{ success: false }`
(lines 351-353), so a throw corresponds to `r = ⟨false, none⟩`.  On
success the item completes; on failure the attempt counter increments
and the loop either suspends on the backoff delay (line 372, guarded by
line 365) or exits `processItem` returning the last failure. -/
def spawnResolvedStep (cfg : SQConfig) (r : SpawnResult) (s : SQState) : SQState :=
  match s.susp with
  | Suspension.awaitingSpawn item retryCount =>
    if r.success then finishItem item r s
    else
      let retryCount := retryCount + 1
      if retryCount ≤ cfg.maxRetries ∧ ¬s.isShutdown then
        { s with susp := Suspension.awaitingBackoff item retryCount r }
      else finishItem item r s
  | _ => s

/-- Settling of the backoff delay (src/spawn-queue.ts line 372): the
retry loop guard `retryCount <= maxRetries && !isShutdown` (line 335)
is re-checked; if it still holds a new attempt starts, otherwise
`processItem` returns the last failure. -/
def backoffElapsedStep (cfg : SQConfig) (s : SQState) : SQState :=
  match s.susp with
  | Suspension.awaitingBackoff item retryCount lastResult =>
    if retryCount ≤ cfg.maxRetries ∧ ¬s.isShutdown then startAttempt item retryCount s
    else finishItem item lastResult s
  | _ => s

/-- Settling of the inter-item delay (src/spawn-queue.ts line 315):
control returns to the head of the while loop. -/
def delayElapsedStep (cfg : SQConfig) (now : Nat) (s : SQState) : SQState :=
  match s.susp with
  | Suspension.awaitingDelay => loopHead cfg now s.queue.length { s with susp := Suspension.idle }
  | _ => s

/-- The external events that drive a `SpawnQueue`: calls into it and
settlings of the awaits it suspends on.  Each event carries the value
of `Date.now()` where the corresponding code reads the clock. -/
inductive SQEvent where
  | enq (now : Nat) (sessionId title : String)
  | spawnResolved (r : SpawnResult)
  | backoffElapsed
  | delayElapsed (now : Nat)
  | shutdown
deriving Repr, DecidableEq

/-- One scheduler step of the queue machine. -/
def sqStep (cfg : SQConfig) (s : SQState) (e : SQEvent) : SQState :=
  match e with
  | SQEvent.enq now sid t => (enqueueStep cfg now sid t s).1
  | SQEvent.spawnResolved r => spawnResolvedStep cfg r s
  | SQEvent.backoffElapsed => backoffElapsedStep cfg s
  | SQEvent.delayElapsed now => delayElapsedStep cfg now s
  | SQEvent.shutdown => shutdownStep s

/-- The state of a freshly constructed `SpawnQueue` (src/spawn-queue.ts
lines 156-176). -/
def sqInit : SQState :=
  ⟨[], [], [], false, false, false, 0, Suspension.idle, [], 0, [], []⟩

/-- Execution of a whole event trace from the initial state. -/
def sqRun (cfg : SQConfig) (events : List SQEvent) : SQState :=
  events.foldl (sqStep cfg) sqInit

/-! ## The zombie reaper (src/utils/index.ts)

JSON payloads are modelled by the `Json` type below (numbers as `Int`;
the float-only values NaN and Infinity do not occur in the payloads the
parser distinguishes).  The platform URL parser used by `areUrlsEqual`
is an external collaborator and is passed in as the predicate `urlEq`. -/

/-- A JSON value as seen by the session-status parser. -/
inductive Json where
  | null
  | bool (b : Bool)
  | num (n : Int)
  | str (s : String)
  | arr (items : List Json)
  | obj (fields : List (String × Json))

mutual

/-- Structural equality of JSON values; the reaper only ever compares
strings (the JavaScript `Set.has` on a session id), for which this
coincides with the `===` used by `Set`. -/
def jsonEqb : Json → Json → Bool
  | Json.null, Json.null => true
  | Json.bool a, Json.bool b => a == b
  | Json.num a, Json.num b => a == b
  | Json.str a, Json.str b => a == b
  | Json.arr as, Json.arr bs => jsonListEqb as bs
  | Json.obj as, Json.obj bs => jsonFieldsEqb as bs
  | _, _ => false

/-- Elementwise equality of JSON arrays. -/
def jsonListEqb : List Json → List Json → Bool
  | [], [] => true
  | a :: as, b :: bs => jsonEqb a b && jsonListEqb as bs
  | _, _ => false

/-- Elementwise equality of JSON object fields. -/
def jsonFieldsEqb : List (String × Json) → List (String × Json) → Bool
  | [], [] => true
  | (k1, v1) :: as, (k2, v2) :: bs => k1 == k2 && jsonEqb v1 v2 && jsonFieldsEqb as bs
  | _, _ => false

end

/-- JavaScript truthiness of a JSON value (`undefined` is represented
as a missing `Option`, see `jsFalsyOpt`). -/
def jsTruthy : Json → Bool
  | Json.null => false
  | Json.bool b => b
  | Json.num n => n ≠ 0
  | Json.str s => s ≠ ""
  | Json.arr _ => true
  | Json.obj _ => true

/-- JavaScript `typeof v === "object"` (true for null, arrays and plain
objects). -/
def jsTypeofObject : Json → Bool
  | Json.null => true
  | Json.arr _ => true
  | Json.obj _ => true
  | _ => false

/-- A truthy non-array object, as in
`payload && typeof payload === "object" && !Array.isArray(payload)`. -/
def jsIsPlainObject : Json → Bool
  | Json.obj _ => true
  | _ => false

/-- JavaScript property access `v[k]`; `none` is `undefined`. -/
def jsGetField : Json → String → Option Json
  | Json.obj fields, k => fields.lookup k
  | _, _ => none

/-- JavaScript `Object.keys`. -/
def jsKeys : Json → List String
  | Json.obj fields => fields.map (fun f => f.1)
  | _ => []

/-- Falsiness of a possibly-undefined value, as in `!data`. -/
def jsFalsyOpt : Option Json → Bool
  | none => true
  | some v => ¬jsTruthy v

/-- JavaScript `typeof v === "object"` on a possibly-undefined value. -/
def jsTypeofObjectOpt : Option Json → Bool
  | none => false
  | some v => jsTypeofObject v

/-- JavaScript `item?.id || item?.sessionId` (src/utils/index.ts
line 387). -/
def jsIdOrSessionId (it : Json) : Option Json :=
  match jsGetField it "id" with
  | some va => if jsTruthy va then some va else jsGetField it "sessionId"
  | none => jsGetField it "sessionId"

/-- Embedding of `fetchActiveSessions` (src/utils/index.ts lines
332-403).  The argument is the parsed JSON payload of the
`/session/status` response; `none` stands for every network-level
failure (fetch rejection, non-2xx status, or a body that is not JSON,
lines 338-352), all of which return `null` in the source.  The result
is `none` exactly when the source returns `null`; otherwise it is the
list of members of the returned `Set`. -/
def fetchActiveSessions (response : Option Json) : Option (List Json) :=
  match response with
  | none => none
  | some payload =>
    if ¬jsTruthy payload ∨ ¬jsTypeofObject payload then none
    else
      let data? := jsGetField payload "data"
      let branch1 : Option (List Json) :=
        if jsFalsyOpt data? ∧ jsIsPlainObject payload then
          let keys := jsKeys payload
          if keys ≠ [] ∧ keys.all (fun k => k.startsWith "ses_" ∨ k.startsWith "session_") then
            some (keys.map Json.str)
          else none
        else none
      match branch1 with
      | some r => some r
      | none =>
        if jsFalsyOpt data? ∨ ¬jsTypeofObjectOpt data? then
          if jsIsPlainObject payload ∧ (jsKeys payload).any (fun k => k.startsWith "ses_") then
            some ((jsKeys payload).map Json.str)
          else none
        else
          match data? with
          | some (Json.arr items) =>
            let ids := items.filterMap (fun it =>
              match jsIdOrSessionId it with
              | some v => if jsTruthy v then some v else none
              | none => none)
            if ids.length > 0 then some ids
            else if items.length = 0 then some []
            else none
          | some (Json.obj fields) => some (fields.map (fun f => Json.str f.1))
          | _ => none

/-- Embedding of the `ZombieCandidate` record (src/utils/index.ts lines
36-39). -/
structure ZombieCandidate where
  count : Nat
  firstDetectedAt : Int
deriving Repr, DecidableEq

/-- The reaper options consumed by the scan logic (src/utils/index.ts
lines 26-34). -/
structure ReaperOptions where
  minZombieChecks : Nat
  gracePeriodMs : Int
  autoSelfDestruct : Bool := false
  selfDestructTimeoutMs : Option Int := none
deriving Repr

/-- Embedding of the `AttachProcess` record (src/utils/index.ts lines
41-46, `command` omitted as nothing reads it after parsing). -/
structure AttachProcess where
  pid : Nat
  sessionId : String
  targetUrl : Option String
deriving Repr, DecidableEq

/-- JavaScript `Map.delete` on the candidate map. -/
def candErase (cands : List (Nat × ZombieCandidate)) (pid : Nat) :
    List (Nat × ZombieCandidate) :=
  cands.filter (fun kv => kv.1 ≠ pid)

/-- Embedding of `markAsZombie` (src/utils/index.ts lines 405-415):
increment an existing candidate, or create one with count 1 and the
current time as first detection. -/
def markAsZombie (cands : List (Nat × ZombieCandidate)) (pid : Nat) (now : Int) :
    List (Nat × ZombieCandidate) :=
  match cands.lookup pid with
  | some c => cands.map (fun kv => if kv.1 = pid then (pid, ⟨c.count + 1, c.firstDetectedAt⟩) else kv)
  | none => (pid, ⟨1, now⟩) :: cands

/-- Embedding of `shouldKill` (src/utils/index.ts lines 417-425): a
candidate must exist, have been seen at least `minZombieChecks` times,
AND have been suspect for at least `gracePeriodMs`. -/
def shouldKill (opts : ReaperOptions) (cands : List (Nat × ZombieCandidate)) (pid : Nat)
    (now : Int) : Bool :=
  match cands.lookup pid with
  | none => false
  | some c => opts.minZombieChecks ≤ c.count ∧ opts.gracePeriodMs ≤ now - c.firstDetectedAt

/-- Mutable state of a `ZombieReaper` instance relevant to scanning
(src/utils/index.ts lines 52-54). -/
structure ReaperState where
  candidates : List (Nat × ZombieCandidate)
  lastActivityTime : Int
deriving Repr, DecidableEq

/-- The environment observed by one continuous-mode scan: the attach
processes found (line 187), the `/session/status` payload for this
server (line 224), and the clock. -/
structure ScanInput where
  processes : List AttachProcess
  response : Option Json
  now : Int

/-- Accumulator of the per-process loop (src/utils/index.ts lines
232-249).  `decisions` is a ghost log: for every process classified as
zombie it records the candidate entry after `markAsZombie` and whether
`shouldKill` fired. -/
structure ScanAcc where
  candidates : List (Nat × ZombieCandidate)
  killed : List Nat
  decisions : List (Nat × ZombieCandidate × Bool)

/-- One iteration of the per-process loop (src/utils/index.ts lines
232-249): a session missing from the active set is marked, then reaped
exactly when `shouldKill` holds (the candidate is deleted on reap,
lines 427-439); a live session is removed from the candidates. -/
def scanProcessStep (opts : ReaperOptions) (activeSessions : List Json) (now : Int)
    (acc : ScanAcc) (proc : AttachProcess) : ScanAcc :=
  if activeSessions.any (fun v => jsonEqb v (Json.str proc.sessionId)) then
    { acc with candidates := candErase acc.candidates proc.pid }
  else
    let cands := markAsZombie acc.candidates proc.pid now
    let cand := (cands.lookup proc.pid).getD ⟨0, 0⟩
    if shouldKill opts cands proc.pid now then
      { candidates := candErase cands proc.pid,
        killed := acc.killed ++ [proc.pid],
        decisions := acc.decisions ++ [(proc.pid, cand, true)] }
    else
      { acc with candidates := cands,
                 decisions := acc.decisions ++ [(proc.pid, cand, false)] }

/-- Result of one scan: the new reaper state, the pids reaped, the
ghost decision log, and whether the self-destruct `process.exit(0)`
was reached. -/
structure ScanResult where
  state : ReaperState
  killed : List Nat
  decisions : List (Nat × ZombieCandidate × Bool)
  selfDestruct : Bool

/-- Embedding of one `scanOnce` invocation (src/utils/index.ts lines
182-258).  The `isScanning` guard only suppresses re-entrant calls and
the scan itself is a single logical step here, so it does not appear.
An unreachable or unparseable status response (`fetchActiveSessions`
returning `null`) aborts the scan with no kills and no candidate
changes (lines 225-228). -/
def scanOnce (serverUrl : String) (urlEq : Option String → String → Bool)
    (opts : ReaperOptions) (st : ReaperState) (inp : ScanInput) : ScanResult :=
  if inp.processes = [] then
    ⟨⟨[], st.lastActivityTime⟩, [], [], false⟩
  else
    let myProcesses := inp.processes.filter (fun p => urlEq p.targetUrl serverUrl)
    if myProcesses = [] then
      let idleTime := inp.now - st.lastActivityTime
      let sd := opts.autoSelfDestruct &&
        (match opts.selfDestructTimeoutMs with
         | some t => decide (t ≠ 0) && decide (t < idleTime)
         | none => false)
      if sd then ⟨st, [], [], true⟩
      else ⟨⟨[], st.lastActivityTime⟩, [], [], false⟩
    else
      let st1 : ReaperState := ⟨st.candidates, inp.now⟩
      match fetchActiveSessions inp.response with
      | none => ⟨st1, [], [], false⟩
      | some activeSessions =>
        let acc := myProcesses.foldl (scanProcessStep opts activeSessions inp.now)
          ⟨st1.candidates, [], []⟩
        let currentPids := myProcesses.map (fun p => p.pid)
        ⟨⟨acc.candidates.filter (fun kv => kv.1 ∈ currentPids), st1.lastActivityTime⟩,
          acc.killed, acc.decisions, false⟩

/-- A sequence of continuous-mode scans, collecting every pid reaped. -/
def runScans (serverUrl : String) (urlEq : Option String → String → Bool)
    (opts : ReaperOptions) : ReaperState → List ScanInput → ReaperState × List Nat
  | st, [] => (st, [])
  | st, inp :: rest =>
    let r := scanOnce serverUrl urlEq opts st inp
    let (st2, killed) := runScans serverUrl urlEq opts r.state rest
    (st2, r.killed ++ killed)

/-! ## The lifecycle manager poll loop (src/tmux-session-manager.ts)

Only the scheduling structure of `startPolling`/`pollSessions` is
modelled: `timerOn` is whether `pollInterval` is set (lines 200-216),
`sessionsCount` the size of the tracked-session map, and
`pollsInFlight` the number of `pollSessions` invocations whose awaited
`client.session.status()` (line 225) has not yet settled.  The source
installs a plain recurring `setInterval` (lines 203-206) and
`pollSessions` has no single-flight guard between its entry (line 218)
and the await (line 225). -/

structure MgrState where
  timerOn : Bool
  sessionsCount : Nat
  pollsInFlight : Nat
deriving Repr, DecidableEq

/-- The scheduler events of the poll loop: a successful pane spawn
(`onSessionCreated` lines 130-148, which tracks the session and calls
`startPolling`), a firing of the recurring interval timer, and the
settling of one outstanding status query (lines 226-259, possibly
closing sessions and stopping the timer when none remain). -/
inductive MgrEvent where
  | sessionCreated
  | intervalFire
  | statusSettled (closedCount : Nat)
deriving Repr, DecidableEq

/-- One scheduler step of the manager model.  On `intervalFire` the
callback `() => this.pollSessions()` runs: with no tracked sessions it
stops the timer (lines 219-222), otherwise it starts the status query
and suspends — regardless of how many polls are already in flight. -/
def mgrStep (s : MgrState) : MgrEvent → MgrState
  | MgrEvent.sessionCreated => { s with sessionsCount := s.sessionsCount + 1, timerOn := true }
  | MgrEvent.intervalFire =>
    if ¬s.timerOn then s
    else if s.sessionsCount = 0 then { s with timerOn := false }
    else { s with pollsInFlight := s.pollsInFlight + 1 }
  | MgrEvent.statusSettled closedCount =>
    if s.pollsInFlight = 0 then s
    else
      let newCount := s.sessionsCount - closedCount
      { timerOn := s.timerOn ∧ ¬(0 < closedCount ∧ newCount = 0),
        sessionsCount := newCount,
        pollsInFlight := s.pollsInFlight - 1 }

/-- Initial manager state (no timer, no sessions, no outstanding poll). -/
def mgrInit : MgrState := ⟨false, 0, 0⟩

/-- Execution of a whole event trace of the manager model. -/
def mgrRun (events : List MgrEvent) : MgrState :=
  events.foldl mgrStep mgrInit

/-! ## Arithmetic helpers for the round-robin distribution -/

theorem succMod (t k : Nat) (hk : 0 < k) :
    (t + 1) % k = if t % k + 1 = k then 0 else t % k + 1 := by
  have h1 : (t + 1) % k = (t % k + 1) % k := by
    conv_lhs => rw [← Nat.mod_add_div t k]
    rw [Nat.add_right_comm, Nat.add_mul_mod_self_left]
  have h2 : t % k < k := Nat.mod_lt _ hk
  rw [h1]
  by_cases h : t % k + 1 = k
  · rw [h, Nat.mod_self, if_pos rfl]
  · rw [if_neg h, Nat.mod_eq_of_lt (by omega)]

theorem succDiv (t k : Nat) (hk : 0 < k) :
    (t + 1) / k = if t % k + 1 = k then t / k + 1 else t / k := by
  have hdvd : k ∣ t + 1 ↔ t % k + 1 = k := by
    rw [Nat.dvd_iff_mod_eq_zero, succMod t k hk]
    by_cases h : t % k + 1 = k <;> simp [h]
  rw [Nat.succ_div]
  by_cases h : t % k + 1 = k
  · rw [if_pos (hdvd.mpr h), if_pos h]
  · rw [if_neg (fun hd => h (hdvd.mp hd)), if_neg h, Nat.add_zero]

theorem pushAt_map_length {α : Type} (cols : List (List α)) (j : Nat) (a : α)
    (hj : j < cols.length) :
    (pushAt cols j a).map List.length
      = (cols.map List.length).set j ((cols.map List.length).getD j 0 + 1) := by
  unfold pushAt
  rw [List.map_set]
  congr 1
  simp [List.getD_eq_getElem?_getD, List.getElem?_eq_getElem hj]

theorem groupGo_map_length {α : Type} (k : Nat) (hk : 0 < k) (ids : List α) :
    ∀ (t : Nat) (cols : List (List α)),
      cols.map List.length
        = (List.range k).map (fun j => t / k + if j < t % k then 1 else 0) →
      (groupGo k ids t cols).map List.length
        = (List.range k).map
            (fun j => (t + ids.length) / k + if j < (t + ids.length) % k then 1 else 0) := by
  induction ids with
  | nil => intro t cols h; simpa using h
  | cons a rest ih =>
    intro t cols h
    have hlen : cols.length = k := by
      have := congrArg List.length h
      simpa using this
    have hr : t % k < k := Nat.mod_lt _ hk
    show (groupGo k rest (t + 1) (pushAt cols (t % k) a)).map List.length = _
    have hstep : (pushAt cols (t % k) a).map List.length
        = (List.range k).map (fun j => (t + 1) / k + if j < (t + 1) % k then 1 else 0) := by
      rw [pushAt_map_length cols (t % k) a (by omega), h]
      apply List.ext_getElem
      · simp
      · intro j hj1 hj2
        have hjk : j < k := by simpa using hj1
        rw [List.getElem_set]
        conv_rhs => rw [List.getElem_map, List.getElem_range]
        have hgetD : ((List.range k).map
            (fun j => t / k + if j < t % k then 1 else 0)).getD (t % k) 0
            = t / k + if t % k < t % k then 1 else 0 := by
          rw [List.getD_eq_getElem?_getD, List.getElem?_map, List.getElem?_range hr]
          rfl
        by_cases hje : t % k = j
        · rw [if_pos hje, hgetD, succMod t k hk, succDiv t k hk]
          by_cases hc : t % k + 1 = k
          · rw [if_pos hc, if_pos hc]; split_ifs <;> omega
          · rw [if_neg hc, if_neg hc]; split_ifs <;> omega
        · rw [if_neg hje, List.getElem_map, List.getElem_range,
            succMod t k hk, succDiv t k hk]
          by_cases hc : t % k + 1 = k
          · rw [if_pos hc, if_pos hc]; split_ifs <;> omega
          · rw [if_neg hc, if_neg hc]; split_ifs <;> omega
    have := ih (t + 1) (pushAt cols (t % k) a) hstep
    rw [this]
    have harith : t + 1 + rest.length = t + (rest.length + 1) := by omega
    simp [harith]

theorem range_map_const_add_ite_sum (k q r : Nat) :
    ((List.range k).map (fun j => q + if j < r then 1 else 0)).sum
      = k * q + min r k := by
  induction k with
  | zero => simp
  | succ k ih =>
    rw [List.range_succ, List.map_append, List.sum_append, ih]
    simp only [List.map_cons, List.map_nil, List.sum_cons, List.sum_nil]
    rw [Nat.succ_mul]
    by_cases h : k < r
    · rw [if_pos h]; omega
    · rw [if_neg h]; omega

theorem ceilNat_eq_ceilDiv (a b : Nat) : ceilNat a b = a ⌈/⌉ b := rfl

theorem ceilNat_pos (a b : Nat) (ha : 0 < a) (hb : 0 < b) : 0 < ceilNat a b := by
  unfold ceilNat
  exact Nat.div_pos (by omega) hb

theorem le_mul_ceilNat (a b : Nat) (hb : 0 < b) : a ≤ b * ceilNat a b := by
  rw [ceilNat_eq_ceilDiv]
  exact le_smul_ceilDiv hb

/-- The bucket sizes of the round-robin grouping, in closed form. -/
theorem groupGo_sizes {α : Type} (k : Nat) (hk : 0 < k) (ids : List α) :
    (groupGo k ids 0 (List.replicate k [])).map List.length
      = (List.range k).map
          (fun j => ids.length / k + if j < ids.length % k then 1 else 0) := by
  have hinit : (List.replicate k ([] : List α)).map List.length
      = (List.range k).map (fun j => 0 / k + if j < 0 % k then 1 else 0) := by
    apply List.ext_getElem
    · simp
    · intro j hj1 hj2
      simp [List.getElem_replicate, List.getElem_map, List.getElem_range]
  have := groupGo_map_length k hk ids 0 (List.replicate k []) hinit
  simpa using this

/-- C3.  For every agent list and every per-column limit of at least 1,
the grouping succeeds, the column sizes add up to the number of agents,
any two column sizes differ by at most 1, and no column exceeds the
limit. -/
theorem claim_C3_distribution_balanced {α : Type} (ids : List α) (m : Int) (hm : 1 ≤ m) :
    ∃ cols, groupAgentsByColumn ids m = Except.ok cols ∧
      (cols.map List.length).sum = ids.length ∧
      (∀ a ∈ cols.map List.length, ∀ b ∈ cols.map List.length, a - b ≤ 1) ∧
      (∀ a ∈ cols.map List.length, (a : Int) ≤ m) := by
  rcases ids with - | ⟨x, rest⟩
  · refine ⟨[], ?_, by simp, by simp, by simp⟩
    simp [groupAgentsByColumn, distributeAgentsRoundRobin, computeColumnCount]
  · set ids := x :: rest with hids
    have hn : 0 < ids.length := by simp [hids]
    have hnI : ¬((ids.length : Int) ≤ 0) := by omega
    have hmI : ¬(m ≤ 0) := by omega
    have hmn : 0 < m.toNat := by omega
    set k := ceilNat ids.length m.toNat with hkd
    have hk : 0 < k := ceilNat_pos ids.length m.toNat hn hmn
    have hcc : computeColumnCount (ids.length : Int) m = Except.ok k := by
      unfold computeColumnCount
      rw [if_neg hnI, if_neg hmI]
      simp [hkd]
    have hdist : distributeAgentsRoundRobin (ids.length : Int) m
        = Except.ok ⟨k, (List.range ids.length).map (fun i => i % k)⟩ := by
      unfold distributeAgentsRoundRobin
      rw [hcc]
      simp only [Int.toNat_ofNat]
      rw [if_neg (by omega)]
    have hgroup : groupAgentsByColumn ids m
        = Except.ok (groupGo k ids 0 (List.replicate k [])) := by
      unfold groupAgentsByColumn
      rw [hdist]
      simp only
      rw [if_neg (by omega)]
    refine ⟨_, hgroup, ?_, ?_, ?_⟩
    · rw [groupGo_sizes k hk ids, range_map_const_add_ite_sum]
      have hmod : ids.length % k < k := Nat.mod_lt _ hk
      have hdm := Nat.div_add_mod ids.length k
      omega
    · intro a ha b hb
      rw [groupGo_sizes k hk ids] at ha hb
      obtain ⟨ja, -, haj⟩ := List.mem_map.mp ha
      obtain ⟨jb, -, hbj⟩ := List.mem_map.mp hb
      subst haj
      subst hbj
      split_ifs <;> omega
    · intro a ha
      rw [groupGo_sizes k hk ids] at ha
      obtain ⟨j, hjmem, haj⟩ := List.mem_map.mp ha
      have hj : j < k := List.mem_range.mp hjmem
      subst haj
      have hkm : ids.length ≤ m.toNat * k := le_mul_ceilNat ids.length m.toNat hmn
      have hdm := Nat.div_add_mod ids.length k
      have hmod : ids.length % k < k := Nat.mod_lt _ hk
      have hbound : ids.length / k + (if j < ids.length % k then 1 else 0) ≤ m.toNat := by
        split_ifs with hlt
        · by_contra hcon
          have hq : m.toNat ≤ ids.length / k := by omega
          have h2 : m.toNat * k ≤ ids.length / k * k := Nat.mul_le_mul_right k hq
          have h3 : ids.length / k * k = k * (ids.length / k) := Nat.mul_comm _ _
          omega
        · by_contra hcon
          have hq : m.toNat < ids.length / k := by omega
          have h2 : m.toNat * k < ids.length / k * k := (Nat.mul_lt_mul_right hk).mpr hq
          have h3 : ids.length / k * k = k * (ids.length / k) := Nat.mul_comm _ _
          omega
      calc ((ids.length / k + if j < ids.length % k then 1 else 0 : Nat) : Int)
          ≤ (m.toNat : Int) := by exact_mod_cast hbound
        _ = m := Int.toNat_of_nonneg (by omega)

/-- Witness for C3 at the scenario of the specification: 5 agents with
a per-column limit of 3. -/
theorem claim_C3_witness :
    ∃ cols, groupAgentsByColumn [0, 1, 2, 3, 4] (3 : Int) = Except.ok cols ∧
      (cols.map List.length).sum = [0, 1, 2, 3, 4].length ∧
      (∀ a ∈ cols.map List.length, ∀ b ∈ cols.map List.length, a - b ≤ 1) ∧
      (∀ a ∈ cols.map List.length, (a : Int) ≤ 3) :=
  claim_C3_distribution_balanced [0, 1, 2, 3, 4] 3 (by norm_num)

/-- Counterexample to C4 as stated: the claim requires an invalid-input
condition whenever maxPerColumn ≤ 0, including agentCount = 0, but the
source checks `totalAgents <= 0` first (src/layout.ts line 31), so
`distribute(0, 0)` returns the zero-column result instead of failing. -/
theorem claim_C4_counterexample :
    distributeAgentsRoundRobin 0 0 = Except.ok ⟨0, []⟩ := rfl

theorem ceilNat_self (n : Nat) (hn : 0 < n) : ceilNat n n = 1 := by
  unfold ceilNat
  exact Nat.div_eq_of_lt_le (by omega) (by omega)

/-- C4 (amended).  `distribute` returns the zero-column result for every
agentCount ≤ 0 (even when maxPerColumn ≤ 0); it reports the
invalid-input condition only when agentCount ≥ 1 and maxPerColumn ≤ 0;
otherwise it assigns agent i to column i mod numColumns with
numColumns = ceil(agentCount / maxPerColumn). -/
theorem claim_C4_distribute_characterization (n m : Int) :
    (n ≤ 0 → distributeAgentsRoundRobin n m = Except.ok ⟨0, []⟩) ∧
    (1 ≤ n → m ≤ 0 → distributeAgentsRoundRobin n m
        = Except.error "maxAgentsPerColumn must be positive") ∧
    (1 ≤ n → 1 ≤ m → distributeAgentsRoundRobin n m
        = Except.ok ⟨ceilNat n.toNat m.toNat,
            (List.range n.toNat).map (fun i => i % ceilNat n.toNat m.toNat)⟩) := by
  refine ⟨?_, ?_, ?_⟩
  · intro h
    unfold distributeAgentsRoundRobin computeColumnCount
    rw [if_pos h]
    simp
  · intro h1 h2
    unfold distributeAgentsRoundRobin computeColumnCount
    rw [if_neg (by omega), if_pos h2]
  · intro h1 h2
    have hk : 0 < ceilNat n.toNat m.toNat := ceilNat_pos _ _ (by omega) (by omega)
    unfold distributeAgentsRoundRobin computeColumnCount
    rw [if_neg (by omega), if_neg (by omega)]
    simp only
    rw [if_neg (by omega)]

/-- Witness for the amended C4 on the three regimes. -/
theorem claim_C4_witness :
    distributeAgentsRoundRobin (-3) 5 = Except.ok ⟨0, []⟩ ∧
    distributeAgentsRoundRobin 4 0 = Except.error "maxAgentsPerColumn must be positive" ∧
    distributeAgentsRoundRobin 5 3 = Except.ok ⟨2, [0, 1, 0, 1, 0]⟩ := by
  refine ⟨(claim_C4_distribute_characterization (-3) 5).1 (by norm_num),
    (claim_C4_distribute_characterization 4 0).2.1 (by norm_num) (by norm_num), ?_⟩
  rw [(claim_C4_distribute_characterization 5 3).2.2 (by norm_num) (by norm_num)]
  rfl

theorem generateColumns_single (width height colWidth : Int) (limit : Nat)
    (clean : List String) (currentX : Int) (hl : clean.length ≤ limit) :
    generateColumns width height colWidth limit clean 1 currentX clean.length 0
      = [buildColumn (width - currentX) height currentX 0 clean] := by
  show generateColumns width height colWidth limit clean (0 + 1) currentX clean.length 0 = _
  unfold generateColumns
  simp only [if_pos rfl, List.drop_zero, Nat.min_eq_left hl, List.take_length]
  rfl

/-- C10.  For every input with at least one subagent pane and
maxAgentsPerColumn ≤ 0, `generateLayoutString` treats the limit as
unlimited: it renders one single column holding every subagent pane
instead of reporting an invalid-input condition, whereas
`distributeAgentsRoundRobin` rejects the same nonpositive limit. -/
theorem claim_C10_nonpositive_limit_single_column (p : LayoutParams)
    (hm : p.maxAgentsPerColumn ≤ 0)
    (hc : p.paneIds.filter (fun id => id ≠ p.mainPaneId) ≠ [])
    (hw : 0 < p.width) (hh : 0 < p.height) :
    generateLayoutString p
      = withChecksum (toString p.width ++ "x" ++ toString p.height ++ ",0,0\x7b" ++
          formatNode ((p.width * p.mainPaneSizePercent).fdiv 100) p.height 0 0 p.mainPaneId ++
          "," ++
          buildColumn (p.width - (p.width * p.mainPaneSizePercent).fdiv 100) p.height
            ((p.width * p.mainPaneSizePercent).fdiv 100) 0
            (p.paneIds.filter (fun id => id ≠ p.mainPaneId)) ++ "\x7d") ∧
    distributeAgentsRoundRobin
        ((p.paneIds.filter (fun id => id ≠ p.mainPaneId)).length : Int) p.maxAgentsPerColumn
      = Except.error "maxAgentsPerColumn must be positive" := by
  have hn : 0 < (p.paneIds.filter (fun id => id ≠ p.mainPaneId)).length := by
    rcases hx : p.paneIds.filter (fun id => id ≠ p.mainPaneId) with - | ⟨a, rest⟩
    · exact absurd hx hc
    · simp [hx]
  constructor
  · unfold generateLayoutString
    rw [if_neg (by omega)]
    rcases hx : p.paneIds.filter (fun id => id ≠ p.mainPaneId) with - | ⟨a, rest⟩
    · exact absurd hx hc
    · rw [hx] at hn
      simp only
      have hlim : generateLimit p.maxAgentsPerColumn (a :: rest).length
          = (a :: rest).length := by
        unfold generateLimit
        rw [if_neg (by omega)]
      rw [hlim, ceilNat_self _ hn,
        generateColumns_single _ _ _ _ _ _ (Nat.le_refl _)]
  · exact (claim_C4_distribute_characterization _ _).2.1 (by omega) hm

/-- Witness for C10: two subagent panes, limit 0. -/
theorem claim_C10_witness :
    generateLayoutString ⟨80, 24, 60, ["%1", "%2"], "%0", 0⟩
      = withChecksum (toString (80 : Int) ++ "x" ++ toString (24 : Int) ++ ",0,0\x7b" ++
          formatNode (((80 : Int) * 60).fdiv 100) 24 0 0 "%0" ++ "," ++
          buildColumn ((80 : Int) - ((80 : Int) * 60).fdiv 100) 24
            (((80 : Int) * 60).fdiv 100) 0
            (["%1", "%2"].filter (fun id => id ≠ "%0")) ++ "\x7d") ∧
    distributeAgentsRoundRobin
        ((["%1", "%2"].filter (fun id => id ≠ "%0")).length : Int) 0
      = Except.error "maxAgentsPerColumn must be positive" :=
  claim_C10_nonpositive_limit_single_column ⟨80, 24, 60, ["%1", "%2"], "%0", 0⟩
    (by norm_num) (by decide) (by norm_num) (by norm_num)

/-! ## Checksum properties (claim C2) -/

theorem layoutChecksumStep_eq_specStep (csum : Nat) (h : csum < 65536) (c : Char) :
    layoutChecksumStep csum c = specChecksumStep csum c := by
  unfold layoutChecksumStep specChecksumStep
  congr 2
  have h2 : csum / 2 < 32768 := by omega
  rcases Nat.mod_two_eq_zero_or_one csum with hm | hm
  · simp [hm]
  · have h3 := Nat.mul_add_lt_is_or (i := 15) (b := csum / 2) (a := 1) h2
    simp only [Nat.mul_one] at h3
    rw [hm, Nat.one_mul, Nat.lor_comm]
    show csum / 2 + 32768 = 32768 ||| csum / 2
    have h15 : (2 : Nat) ^ 15 = 32768 := by norm_num
    rw [h15] at h3
    omega

theorem specChecksumStep_lt (csum : Nat) (c : Char) : specChecksumStep csum c < 65536 :=
  Nat.mod_lt _ (by norm_num)

theorem foldl_specStep_lt (l : List Char) (csum : Nat) (h : csum < 65536) :
    l.foldl specChecksumStep csum < 65536 := by
  induction l generalizing csum with
  | nil => exact h
  | cons c rest ih => exact ih _ (specChecksumStep_lt csum c)

theorem foldl_layoutStep_eq_spec (l : List Char) (csum : Nat) (h : csum < 65536) :
    l.foldl layoutChecksumStep csum = l.foldl specChecksumStep csum := by
  induction l generalizing csum with
  | nil => rfl
  | cons c rest ih =>
    show List.foldl layoutChecksumStep (layoutChecksumStep csum c) rest = _
    rw [layoutChecksumStep_eq_specStep csum h c, ih _ (specChecksumStep_lt csum c)]
    rfl

/-- The per-character-truncated checksum of the source agrees with the
formula written in the specification. -/
theorem layoutChecksum_eq_specChecksum (s : String) : layoutChecksum s = specChecksum s :=
  foldl_layoutStep_eq_spec s.data 0 (by norm_num)

theorem specChecksum_lt (s : String) : specChecksum s < 65536 :=
  foldl_specStep_lt s.data 0 (by norm_num)

theorem toDigitsCore_length_le (k : Nat) :
    ∀ (fuel n : Nat) (acc : List Char), 0 < k → n < 16 ^ k →
      (Nat.toDigitsCore 16 fuel n acc).length ≤ acc.length + k := by
  induction k with
  | zero => intro fuel n acc hk; omega
  | succ k ih =>
    intro fuel n acc _ hn
    match fuel with
    | 0 => show acc.length ≤ acc.length + (k + 1); omega
    | fuel + 1 =>
      show (if n / 16 = 0 then Nat.digitChar (n % 16) :: acc
        else Nat.toDigitsCore 16 fuel (n / 16) (Nat.digitChar (n % 16) :: acc)).length
          ≤ acc.length + (k + 1)
      by_cases hz : n / 16 = 0
      · rw [if_pos hz]
        have hlc : (Nat.digitChar (n % 16) :: acc).length = acc.length + 1 := rfl
        omega
      · rw [if_neg hz]
        have hk : 0 < k := by
          by_contra hk0
          have hkz : k = 0 := by omega
          subst hkz
          have h16 : (16 : Nat) ^ (0 + 1) = 16 := by norm_num
          rw [h16] at hn
          exact hz (Nat.div_eq_of_lt hn)
        have hdiv : n / 16 < 16 ^ k := by
          rw [Nat.div_lt_iff_lt_mul (by norm_num)]
          calc n < 16 ^ (k + 1) := hn
            _ = 16 ^ k * 16 := by rw [pow_succ]
        have := ih fuel (n / 16) (Nat.digitChar (n % 16) :: acc) hk hdiv
        have hlc : (Nat.digitChar (n % 16) :: acc).length = acc.length + 1 := rfl
        omega

theorem digitChar_mem_hex (m : Nat) (hm : m < 16) :
    Nat.digitChar m ∈ ("0123456789abcdef").data := by
  interval_cases m <;> decide

theorem toDigitsCore_mem_hex :
    ∀ (fuel n : Nat) (acc : List Char), (∀ c ∈ acc, c ∈ ("0123456789abcdef").data) →
      ∀ c ∈ Nat.toDigitsCore 16 fuel n acc, c ∈ ("0123456789abcdef").data := by
  intro fuel
  induction fuel with
  | zero => intro n acc hacc; exact hacc
  | succ fuel ih =>
    intro n acc hacc c hc
    have hd : Nat.digitChar (n % 16) ∈ ("0123456789abcdef").data :=
      digitChar_mem_hex _ (Nat.mod_lt _ (by norm_num))
    show c ∈ _
    by_cases hz : n / 16 = 0
    · rw [show Nat.toDigitsCore 16 (fuel + 1) n acc
          = Nat.digitChar (n % 16) :: acc from by
            show (if n / 16 = 0 then _ else _) = _
            rw [if_pos hz]] at hc
      rcases List.mem_cons.mp hc with h | h
      · exact h ▸ hd
      · exact hacc c h
    · rw [show Nat.toDigitsCore 16 (fuel + 1) n acc
          = Nat.toDigitsCore 16 fuel (n / 16) (Nat.digitChar (n % 16) :: acc) from by
            show (if n / 16 = 0 then _ else _) = _
            rw [if_neg hz]] at hc
      refine ih (n / 16) (Nat.digitChar (n % 16) :: acc) ?_ c hc
      intro c2 hc2
      rcases List.mem_cons.mp hc2 with h | h
      · exact h ▸ hd
      · exact hacc c2 h

theorem natToHex_length_le (n : Nat) (hn : n < 65536) : (natToHex n).length ≤ 4 := by
  unfold natToHex Nat.toDigits
  show (Nat.toDigitsCore 16 (n + 1) n []).length ≤ 4
  have := toDigitsCore_length_le 4 (n + 1) n [] (by norm_num) (by norm_num; omega)
  simpa using this

theorem natToHex_mem_hex (n : Nat) : ∀ c ∈ (natToHex n).data, c ∈ ("0123456789abcdef").data := by
  unfold natToHex Nat.toDigits
  exact toDigitsCore_mem_hex (n + 1) n [] (by intro c hc; cases hc)

theorem padStart4_length (s : String) (h : s.length ≤ 4) : (padStart4 s '0').length = 4 := by
  unfold padStart4
  by_cases h4 : 4 ≤ s.length
  · rw [if_pos h4]; omega
  · rw [if_neg h4]
    rw [String.length_append]
    show (List.replicate (4 - s.length) '0').length + s.length = 4
    rw [List.length_replicate]
    omega

theorem padStart4_mem (s : String) (c : Char) (hc : c ∈ (padStart4 s '0').data) :
    c ∈ s.data ∨ c = '0' := by
  unfold padStart4 at hc
  by_cases h4 : 4 ≤ s.length
  · rw [if_pos h4] at hc; exact Or.inl hc
  · rw [if_neg h4] at hc
    have : c ∈ List.replicate (4 - s.length) '0' ++ s.data := hc
    rcases List.mem_append.mp this with h | h
    · exact Or.inr (List.eq_of_mem_replicate h)
    · exact Or.inl h

set_option maxRecDepth 4000 in
/-- Counterexample to C2 as stated.  At the ordinary input 80x24, 60%
main pane, four subagent panes, limit 3, the produced prefix is `8217`
while the per-character-truncated formula of the specification over the
same body yields `8207` (the `withChecksum` of src/utils/layout.ts only
truncates once, after the loop); and at 70x1100 with no subagent panes
the prefix `770` has 3 digits, not 4 (`toString(16)` is not padded). -/
theorem claim_C2_counterexample :
    generateLayoutString ⟨80, 24, 60, ["%1", "%2", "%3", "%4"], "%0", 3⟩
      = "8217," ++
        "80x24,0,0\x7b48x24,0,0,%0,32x24,48,0\x7b16x24,48,0[16x8,48,0,%1,16x8,48,8,%2,16x8,48,16,%3],16x24,64,0,%4\x7d\x7d" ∧
    padStart4 (natToHex (specChecksum
        "80x24,0,0\x7b48x24,0,0,%0,32x24,48,0\x7b16x24,48,0[16x8,48,0,%1,16x8,48,8,%2,16x8,48,16,%3],16x24,64,0,%4\x7d\x7d")) '0'
      = "8207" ∧
    ("8217" : String) ≠ "8207" ∧
    generateLayoutString ⟨70, 1100, 60, [], "%5120", 3⟩ = "770,70x1100,0,0,%5120" ∧
    ("770" : String).length ≠ 4 := by
  refine ⟨by rfl, by rfl, by decide, by rfl, by decide⟩

/-- C2 (amended).  The layout.ts renderer
`buildMainVerticalMultiColumnLayoutString` prefixes the
per-character-truncated 16-bit checksum of the specification formula,
rendered as exactly 4 lowercase hexadecimal digits.  The utils/layout.ts
renderer `generateLayoutString` instead accumulates the sum without
per-character truncation, truncates to 16 bits once after the last
character, and renders it without zero padding, so its prefix may be
shorter than 4 digits and its value may differ from the
per-character-truncated checksum. -/
theorem claim_C2_checksum_amended :
    (∀ s : String, layoutChecksum s = specChecksum s ∧ layoutChecksum s < 65536) ∧
    (∀ p : MainVerticalParams, p.columns.length ≠ 0 →
      buildMainVerticalMultiColumnLayoutString p
        = Except.ok (padStart4 (natToHex (specChecksum (buildMainVerticalBody p))) '0'
            ++ "," ++ buildMainVerticalBody p) ∧
      (padStart4 (natToHex (specChecksum (buildMainVerticalBody p))) '0').length = 4 ∧
      (∀ c ∈ (padStart4 (natToHex (specChecksum (buildMainVerticalBody p))) '0').data,
        c ∈ ("0123456789abcdef").data)) ∧
    (∀ p : LayoutParams, ¬(p.width ≤ 0 ∨ p.height ≤ 0) →
      ∃ body, generateLayoutString p
        = natToHex (withChecksumAcc body % 65536) ++ "," ++ body) := by
  refine ⟨?_, ?_, ?_⟩
  · intro s
    exact ⟨layoutChecksum_eq_specChecksum s,
      layoutChecksum_eq_specChecksum s ▸ specChecksum_lt s⟩
  · intro p hp
    have hlt : specChecksum (buildMainVerticalBody p) < 65536 := specChecksum_lt _
    refine ⟨?_, padStart4_length _ (natToHex_length_le _ hlt), ?_⟩
    · unfold buildMainVerticalMultiColumnLayoutString
      rw [if_neg hp]
      simp only [layoutChecksum_eq_specChecksum]
    · intro c hc
      rcases padStart4_mem _ c hc with h | h
      · exact natToHex_mem_hex _ c h
      · rw [h]; decide
  · intro p hp
    unfold generateLayoutString
    rw [if_neg hp]
    rcases p.paneIds.filter (fun id => id ≠ p.mainPaneId) with - | ⟨a, rest⟩
    · exact ⟨_, rfl⟩
    · exact ⟨_, rfl⟩

/-- Witness for the amended C2 at concrete inputs of both renderers. -/
theorem claim_C2_witness :
    (buildMainVerticalMultiColumnLayoutString ⟨80, 24, 0, [[1], [2]], 60⟩
        = Except.ok (padStart4 (natToHex (specChecksum
            (buildMainVerticalBody ⟨80, 24, 0, [[1], [2]], 60⟩))) '0'
            ++ "," ++ buildMainVerticalBody ⟨80, 24, 0, [[1], [2]], 60⟩) ∧
      (padStart4 (natToHex (specChecksum
          (buildMainVerticalBody ⟨80, 24, 0, [[1], [2]], 60⟩))) '0').length = 4 ∧
      (∀ c ∈ (padStart4 (natToHex (specChecksum
          (buildMainVerticalBody ⟨80, 24, 0, [[1], [2]], 60⟩))) '0').data,
        c ∈ ("0123456789abcdef").data)) ∧
    (∃ body, generateLayoutString ⟨80, 24, 60, ["%1"], "%0", 3⟩
        = natToHex (withChecksumAcc body % 65536) ++ "," ++ body) :=
  ⟨claim_C2_checksum_amended.2.1 ⟨80, 24, 0, [[1], [2]], 60⟩ (by decide),
   claim_C2_checksum_amended.2.2 ⟨80, 24, 60, ["%1"], "%0", 3⟩ (by norm_num)⟩

/-! ## Queue invariants (claims C1, C5, C8) -/

theorem lookup_cons_self (m : List (String × Nat)) (k : String) (v : Nat) :
    (((k, v) :: m).lookup k) = some v := by
  simp [List.lookup]

theorem lookup_cons_ne (m : List (String × Nat)) (k k2 : String) (v : Nat) (h : k2 ≠ k) :
    (((k, v) :: m).lookup k2) = m.lookup k2 := by
  simp [List.lookup, beq_eq_false_iff_ne.mpr h]

theorem lookup_mapErase_ne (m : List (String × Nat)) (k sid : String) (h : sid ≠ k) :
    (mapErase m k).lookup sid = m.lookup sid := by
  induction m with
  | nil => rfl
  | cons kv rest ih =>
    unfold mapErase
    by_cases hk : kv.1 = k
    · rw [List.filter_cons_of_neg (by simp [hk])]
      unfold mapErase at ih
      rw [ih]
      obtain ⟨k1, v1⟩ := kv
      simp only at hk
      rw [hk]
      exact (lookup_cons_ne rest k sid v1 h).symm
    · rw [List.filter_cons_of_pos (by simp [hk])]
      obtain ⟨k1, v1⟩ := kv
      by_cases hs : sid = k1
      · subst hs
        rw [lookup_cons_self, lookup_cons_self]
      · rw [lookup_cons_ne _ _ _ _ hs, lookup_cons_ne _ _ _ _ hs]
        exact ih

theorem lookupN_cons_self (m : List (Nat × SpawnResult)) (k : Nat) (v : SpawnResult) :
    (((k, v) :: m).lookup k) = some v := by
  simp [List.lookup]

theorem lookupN_cons_ne (m : List (Nat × SpawnResult)) (k k2 : Nat) (v : SpawnResult)
    (h : k2 ≠ k) : (((k, v) :: m).lookup k2) = m.lookup k2 := by
  simp [List.lookup, beq_eq_false_iff_ne.mpr h]

theorem resolvePromise_preserve (res : List (Nat × SpawnResult)) (pid pid2 : Nat)
    (r r2 : SpawnResult) (h : res.lookup pid = some r) :
    (resolvePromise res pid2 r2).lookup pid = some r := by
  unfold resolvePromise
  match hx : res.lookup pid2 with
  | some _ => exact h
  | none =>
    by_cases he : pid = pid2
    · subst he
      rw [hx] at h
      cases h
    · rw [lookupN_cons_ne _ _ _ _ he]
      exact h

theorem resolvePromise_fresh (res : List (Nat × SpawnResult)) (pid : Nat) (r : SpawnResult)
    (h : res.lookup pid = none) : (resolvePromise res pid r).lookup pid = some r := by
  unfold resolvePromise
  rw [h]
  exact lookupN_cons_self res pid r

/-- The number of queue entries or in-flight slots holding a given
sessionId: at most one such entry may exist at any time (coalescing). -/
def suspCount (susp : Suspension) (sid : String) : Nat :=
  match susp with
  | Suspension.awaitingSpawn item _ => if item.sessionId = sid then 1 else 0
  | Suspension.awaitingBackoff item _ _ => if item.sessionId = sid then 1 else 0
  | _ => 0

/-- The number of queued items holding a given sessionId. -/
def queueCount (q : List QueueItem) (sid : String) : Nat :=
  (q.filter (fun i => i.sessionId = sid)).length

/-- Queued plus in-flight occurrences of a sessionId. -/
def keyCount (s : SQState) (sid : String) : Nat :=
  queueCount s.queue sid + suspCount s.susp sid

/-- The coalescing invariant: each sessionId occurs at most once among
the queue and the in-flight slot, and while it does occur it is present
in the pending-promise map. -/
def SQInv (s : SQState) : Prop :=
  ∀ sid, keyCount s sid ≤ 1 ∧ (1 ≤ keyCount s sid → (s.pending.lookup sid).isSome)

theorem sqRun_induction (P : SQState → Prop) (cfg : SQConfig) (h0 : P sqInit)
    (hstep : ∀ s e, P s → P (sqStep cfg s e)) : ∀ events, P (sqRun cfg events) := by
  intro events
  unfold sqRun
  induction events using List.reverseRecOn with
  | nil => exact h0
  | append_singleton rest e ih =>
    rw [List.foldl_append]
    exact hstep _ e ih

theorem queueCount_cons (item : QueueItem) (q : List QueueItem) (sid : String) :
    queueCount (item :: q) sid
      = (if item.sessionId = sid then 1 else 0) + queueCount q sid := by
  unfold queueCount
  rw [List.filter_cons]
  by_cases h : item.sessionId = sid
  · simp only [h]
    simp
    omega
  · simp [h]

theorem queueCount_append (q1 q2 : List QueueItem) (sid : String) :
    queueCount (q1 ++ q2) sid = queueCount q1 sid + queueCount q2 sid := by
  unfold queueCount
  rw [List.filter_append, List.length_append]

theorem suspCount_idle (sid : String) : suspCount Suspension.idle sid = 0 := rfl

theorem suspCount_awaitingDelay (sid : String) :
    suspCount Suspension.awaitingDelay sid = 0 := rfl

theorem suspCount_awaitingSpawn (item : QueueItem) (rc : Nat) (sid : String) :
    suspCount (Suspension.awaitingSpawn item rc) sid
      = if item.sessionId = sid then 1 else 0 := rfl

theorem suspCount_awaitingBackoff (item : QueueItem) (rc : Nat) (r : SpawnResult)
    (sid : String) :
    suspCount (Suspension.awaitingBackoff item rc r) sid
      = if item.sessionId = sid then 1 else 0 := rfl

theorem exitLoop_fields (s : SQState) :
    (exitLoop s).queue = s.queue ∧ (exitLoop s).pending = s.pending ∧
    (exitLoop s).susp = Suspension.idle ∧ (exitLoop s).resolved = s.resolved ∧
    (exitLoop s).spawnStarts = s.spawnStarts := by
  unfold exitLoop notifyQueueUpdate notifyQueueDrained
  dsimp only
  split_ifs <;> exact ⟨rfl, rfl, rfl, rfl, rfl⟩

theorem SQInv_exitLoop (s : SQState) (h : SQInv s) : SQInv (exitLoop s) := by
  obtain ⟨hq, hp, hs, -, -⟩ := exitLoop_fields s
  intro sid
  obtain ⟨h1, h2⟩ := h sid
  unfold keyCount at h1 h2 ⊢
  rw [hq, hp, hs, suspCount_idle]
  exact ⟨by omega, fun hc => h2 (by omega)⟩

theorem SQInv_staleSkip (item : QueueItem) (s : SQState) (h : SQInv s)
    (hz : keyCount s item.sessionId = 0) : SQInv (staleSkip item s) := by
  intro sid
  obtain ⟨h1, h2⟩ := h sid
  unfold staleSkip
  unfold keyCount at h1 h2 hz ⊢
  dsimp only
  by_cases hs : sid = item.sessionId
  · subst hs
    exact ⟨h1, fun hc => absurd hc (by omega)⟩
  · refine ⟨h1, fun hc => ?_⟩
    rw [lookup_mapErase_ne _ _ _ hs]
    exact h2 hc

theorem SQInv_startAttempt (item : QueueItem) (rc : Nat) (s : SQState) (h : SQInv s)
    (hq : queueCount s.queue item.sessionId = 0)
    (hp : (s.pending.lookup item.sessionId).isSome) :
    SQInv (startAttempt item rc s) := by
  intro sid
  obtain ⟨h1, h2⟩ := h sid
  unfold startAttempt
  unfold keyCount at h1 h2 ⊢
  dsimp only
  rw [suspCount_awaitingSpawn]
  by_cases hs : item.sessionId = sid
  · rw [if_pos hs]
    subst hs
    exact ⟨by omega, fun _ => hp⟩
  · rw [if_neg hs]
    exact ⟨by omega, fun hc => h2 (by omega)⟩

theorem SQInv_loopHead (cfg : SQConfig) (now : Nat) :
    ∀ (fuel : Nat) (s : SQState), SQInv s → SQInv (loopHead cfg now fuel s) := by
  intro fuel
  induction fuel with
  | zero => intro s h; exact SQInv_exitLoop s h
  | succ fuel ih =>
    intro s h
    show SQInv (match s.queue with
      | [] => exitLoop s
      | item :: rest =>
        if s.isShutdown then exitLoop s
        else
          let s2 := notifyQueueUpdate { s with queue := rest, hasItemInFlight := true }
          if now - item.enqueuedAt > cfg.staleThresholdMs then
            loopHead cfg now fuel (staleSkip item s2)
          else startAttempt item 0 s2)
    match hq : s.queue with
    | [] => exact SQInv_exitLoop s h
    | item :: rest =>
      dsimp only
      by_cases hsd : s.isShutdown
      · rw [if_pos hsd]
        exact SQInv_exitLoop s h
      · rw [if_neg hsd]
        have hitem := h item.sessionId
        unfold keyCount at hitem
        rw [hq, queueCount_cons, if_pos rfl] at hitem
        have hqr : queueCount rest item.sessionId = 0 := by omega
        have hsusp0 : suspCount s.susp item.sessionId = 0 := by omega
        have hpend : (s.pending.lookup item.sessionId).isSome := by
          apply (h item.sessionId).2
          unfold keyCount
          rw [hq, queueCount_cons, if_pos rfl]
          omega
        have h2 : SQInv (notifyQueueUpdate { s with queue := rest, hasItemInFlight := true }) := by
          intro sid
          obtain ⟨g1, g2⟩ := h sid
          unfold keyCount at g1 g2 ⊢
          unfold notifyQueueUpdate
          simp only
          rw [hq, queueCount_cons] at g1 g2
          constructor
          · omega
          · intro hc
            exact g2 (by omega)
        by_cases hstale : now - item.enqueuedAt > cfg.staleThresholdMs
        · rw [if_pos hstale]
          apply ih
          apply SQInv_staleSkip _ _ h2
          unfold keyCount
          unfold notifyQueueUpdate
          simp only
          omega
        · rw [if_neg hstale]
          apply SQInv_startAttempt _ _ _ h2
          · unfold notifyQueueUpdate
            simp only
            exact hqr
          · unfold notifyQueueUpdate
            simp only
            exact hpend

theorem finishItem_fields (item : QueueItem) (r : SpawnResult) (s : SQState) :
    (finishItem item r s).queue = s.queue ∧
    (finishItem item r s).pending = mapErase s.pending item.sessionId ∧
    (∀ sid, suspCount (finishItem item r s).susp sid = 0) ∧
    (finishItem item r s).resolved = resolvePromise s.resolved item.promiseId r ∧
    (finishItem item r s).spawnStarts = s.spawnStarts := by
  unfold finishItem
  dsimp only
  split_ifs with hcond
  · exact ⟨rfl, rfl, fun sid => rfl, rfl, rfl⟩
  · obtain ⟨a, b, c, d, e⟩ := exitLoop_fields
      { s with resolved := resolvePromise s.resolved item.promiseId r,
               pending := mapErase s.pending item.sessionId,
               hasItemInFlight := false }
    refine ⟨a, b, fun sid => ?_, d, e⟩
    rw [c]
    rfl

theorem SQInv_finishItem (item : QueueItem) (r : SpawnResult) (s : SQState) (h : SQInv s)
    (hq0 : queueCount s.queue item.sessionId = 0) : SQInv (finishItem item r s) := by
  obtain ⟨fq, fp, fs, -, -⟩ := finishItem_fields item r s
  intro sid
  obtain ⟨h1, h2⟩ := h sid
  unfold keyCount at h1 h2 ⊢
  rw [fq, fp, fs sid]
  by_cases hs : sid = item.sessionId
  · subst hs
    exact ⟨by omega, fun hc => absurd hc (by omega)⟩
  · rw [lookup_mapErase_ne _ _ _ hs]
    exact ⟨by omega, fun hc => h2 (by omega)⟩

theorem SQInv_spawnResolvedStep (cfg : SQConfig) (r : SpawnResult) (s : SQState)
    (h : SQInv s) : SQInv (spawnResolvedStep cfg r s) := by
  unfold spawnResolvedStep
  match hsusp : s.susp with
  | Suspension.idle => exact h
  | Suspension.awaitingDelay => exact h
  | Suspension.awaitingBackoff item rc lr => exact h
  | Suspension.awaitingSpawn item rc =>
    have hcnt := (h item.sessionId).1
    unfold keyCount at hcnt
    rw [hsusp, suspCount_awaitingSpawn, if_pos rfl] at hcnt
    have hq0 : queueCount s.queue item.sessionId = 0 := by omega
    dsimp only
    by_cases hrs : r.success = true
    · rw [if_pos hrs]
      exact SQInv_finishItem item r s h hq0
    · rw [if_neg hrs]
      split_ifs with hretry
      · intro sid
        obtain ⟨h1, h2⟩ := h sid
        unfold keyCount at h1 h2 ⊢
        dsimp only
        rw [suspCount_awaitingBackoff, hsusp, suspCount_awaitingSpawn] at *
        exact ⟨h1, h2⟩
      · exact SQInv_finishItem item r s h hq0

theorem SQInv_backoffElapsedStep (cfg : SQConfig) (s : SQState) (h : SQInv s) :
    SQInv (backoffElapsedStep cfg s) := by
  unfold backoffElapsedStep
  match hsusp : s.susp with
  | Suspension.idle => exact h
  | Suspension.awaitingDelay => exact h
  | Suspension.awaitingSpawn item rc => exact h
  | Suspension.awaitingBackoff item rc lr =>
    have hcnt := (h item.sessionId).1
    have hsome := (h item.sessionId).2
    unfold keyCount at hcnt hsome
    rw [hsusp, suspCount_awaitingBackoff, if_pos rfl] at hcnt hsome
    have hq0 : queueCount s.queue item.sessionId = 0 := by omega
    dsimp only
    split_ifs with hretry
    · exact SQInv_startAttempt item rc s h hq0 (hsome (by omega))
    · exact SQInv_finishItem item lr s h hq0

theorem SQInv_delayElapsedStep (cfg : SQConfig) (now : Nat) (s : SQState) (h : SQInv s) :
    SQInv (delayElapsedStep cfg now s) := by
  unfold delayElapsedStep
  match hsusp : s.susp with
  | Suspension.idle => exact h
  | Suspension.awaitingSpawn item rc => exact h
  | Suspension.awaitingBackoff item rc lr => exact h
  | Suspension.awaitingDelay =>
    dsimp only
    apply SQInv_loopHead
    intro sid
    obtain ⟨h1, h2⟩ := h sid
    unfold keyCount at h1 h2 ⊢
    dsimp only
    rw [suspCount_idle]
    exact ⟨by omega, fun hc => h2 (by omega)⟩

theorem SQInv_enqueueStep (cfg : SQConfig) (now : Nat) (sid2 title : String) (s : SQState)
    (h : SQInv s) : SQInv (enqueueStep cfg now sid2 title s).1 := by
  unfold enqueueStep
  dsimp only
  split_ifs with hsd
  · exact h
  · match hx : s.pending.lookup sid2 with
    | some pid => exact h
    | none =>
      dsimp only
      have hzero : keyCount s sid2 = 0 := by
        by_contra hc
        have := (h sid2).2 (by omega)
        rw [hx] at this
        cases this
      have hsusp0 : suspCount s.susp sid2 = 0 := by
        unfold keyCount at hzero
        omega
      have hq0 : queueCount s.queue sid2 = 0 := by
        unfold keyCount at hzero
        omega
      have hinv2 : SQInv (notifyQueueUpdate
          { s with nextPromiseId := s.nextPromiseId + 1,
                   pending := (sid2, s.nextPromiseId) :: s.pending,
                   queue := s.queue ++ [⟨sid2, title, now, s.nextPromiseId⟩],
                   enqueueReturns := s.enqueueReturns ++ [(sid2, s.nextPromiseId)] }) := by
        intro sid
        obtain ⟨h1, h2⟩ := h sid
        unfold keyCount at h1 h2 ⊢
        unfold notifyQueueUpdate
        dsimp only
        rw [queueCount_append, queueCount_cons]
        dsimp only
        have hqnil : ∀ x, queueCount [] x = 0 := fun x => rfl
        rw [hqnil]
        by_cases hs : sid = sid2
        · subst hs
          rw [if_pos rfl, lookup_cons_self]
          exact ⟨by omega, fun _ => rfl⟩
        · rw [if_neg (fun hh => hs hh.symm), lookup_cons_ne _ _ _ _ hs]
          exact ⟨by omega, fun hc => h2 (by omega)⟩
      unfold processQueueStart
      split_ifs with hpr
      · exact hinv2
      · exact SQInv_loopHead cfg now _ _ hinv2

theorem shutdownDrain_fields (items : List QueueItem) :
    ∀ (t : SQState),
      (items.foldl shutdownDrainItem t).queue = t.queue ∧
      (items.foldl shutdownDrainItem t).susp = t.susp ∧
      (items.foldl shutdownDrainItem t).spawnStarts = t.spawnStarts ∧
      (items.foldl shutdownDrainItem t).isShutdown = t.isShutdown := by
  induction items with
  | nil => intro t; exact ⟨rfl, rfl, rfl, rfl⟩
  | cons hd tl ih =>
    intro t
    obtain ⟨a, b, c, d⟩ := ih (shutdownDrainItem t hd)
    exact ⟨a, b, c, d⟩

theorem shutdownDrain_lookup (items : List QueueItem) :
    ∀ (t : SQState) (sid : String), (∀ item ∈ items, sid ≠ item.sessionId) →
      (items.foldl shutdownDrainItem t).pending.lookup sid = t.pending.lookup sid := by
  induction items with
  | nil => intro t sid _; rfl
  | cons hd tl ih =>
    intro t sid hmem
    have h1 := ih (shutdownDrainItem t hd) sid (fun i hi => hmem i (List.mem_cons_of_mem hd hi))
    rw [List.foldl_cons, h1]
    show (mapErase t.pending hd.sessionId).lookup sid = t.pending.lookup sid
    exact lookup_mapErase_ne _ _ _ (hmem hd (List.mem_cons_self hd tl))

theorem resolvePromise_lookup_cases (res : List (Nat × SpawnResult)) (pid2 : Nat)
    (r2 : SpawnResult) (pid : Nat) :
    (resolvePromise res pid2 r2).lookup pid = res.lookup pid ∨
    (resolvePromise res pid2 r2).lookup pid = some r2 := by
  unfold resolvePromise
  match hx : res.lookup pid2 with
  | some _ => exact Or.inl rfl
  | none =>
    by_cases he : pid = pid2
    · subst he
      rw [lookupN_cons_self]
      exact Or.inr rfl
    · rw [lookupN_cons_ne _ _ _ _ he]
      exact Or.inl rfl

theorem shutdownDrain_resolved_preserve (items : List QueueItem) :
    ∀ (t : SQState) (pid : Nat) (r : SpawnResult), t.resolved.lookup pid = some r →
      (items.foldl shutdownDrainItem t).resolved.lookup pid = some r := by
  induction items with
  | nil => intro t pid r h; exact h
  | cons hd tl ih =>
    intro t pid r h
    exact ih (shutdownDrainItem t hd) pid r (resolvePromise_preserve _ _ _ _ _ h)

theorem shutdownDrain_resolves (items : List QueueItem) :
    ∀ (t : SQState) (item : QueueItem), item ∈ items →
      (t.resolved.lookup item.promiseId = none ∨
        t.resolved.lookup item.promiseId = some ⟨false, none⟩) →
      (items.foldl shutdownDrainItem t).resolved.lookup item.promiseId
        = some ⟨false, none⟩ := by
  induction items with
  | nil => intro t item hmem; cases hmem
  | cons hd tl ih =>
    intro t item hmem hpre
    rcases List.mem_cons.mp hmem with he | hm
    · subst he
      have hset : (shutdownDrainItem t item).resolved.lookup item.promiseId
          = some ⟨false, none⟩ := by
        rcases hpre with h | h
        · exact resolvePromise_fresh _ _ _ h
        · exact resolvePromise_preserve _ _ _ _ _ h
      exact shutdownDrain_resolved_preserve tl _ _ _ hset
    · apply ih (shutdownDrainItem t hd) item hm
      have hres : (shutdownDrainItem t hd).resolved
          = resolvePromise t.resolved hd.promiseId ⟨false, none⟩ := rfl
      rw [hres]
      rcases resolvePromise_lookup_cases t.resolved hd.promiseId ⟨false, none⟩
        item.promiseId with hcc | hcc
      · rw [hcc]
        exact hpre
      · rw [hcc]
        exact Or.inr rfl

theorem queueCount_zero_not_mem (q : List QueueItem) (sid : String)
    (h : queueCount q sid = 0) : ∀ item ∈ q, sid ≠ item.sessionId := by
  intro item hmem heq
  unfold queueCount at h
  have : item ∈ q.filter (fun i => decide (i.sessionId = sid)) :=
    List.mem_filter.mpr ⟨hmem, by simp [heq.symm]⟩
  rw [List.length_eq_zero] at h
  rw [h] at this
  cases this

theorem SQInv_shutdownStep (s : SQState) (h : SQInv s) : SQInv (shutdownStep s) := by
  unfold shutdownStep
  split_ifs with hsd
  · exact h
  · dsimp only
    intro sid
    obtain ⟨h1, h2⟩ := h sid
    obtain ⟨fq, fsusp, -, -⟩ :=
      shutdownDrain_fields s.queue { s with isShutdown := true, queue := [] }
    have hq' : ({ s with isShutdown := true, queue := [] } : SQState).queue = [] := rfl
    have hs' : ({ s with isShutdown := true, queue := [] } : SQState).susp = s.susp := rfl
    rw [hq'] at fq
    rw [hs'] at fsusp
    unfold keyCount at h1 h2 ⊢
    unfold notifyQueueUpdate
    dsimp only
    rw [fq, fsusp]
    have hqnil : queueCount [] sid = 0 := rfl
    constructor
    · omega
    · intro hc
      have hq0 : queueCount s.queue sid = 0 := by omega
      rw [shutdownDrain_lookup s.queue _ sid (queueCount_zero_not_mem s.queue sid hq0)]
      rw [show ({ s with isShutdown := true, queue := [] } : SQState).pending
        = s.pending from rfl]
      exact h2 (by omega)

/-- Preservation of the coalescing invariant by every scheduler step. -/
theorem SQInv_sqStep (cfg : SQConfig) (s : SQState) (e : SQEvent) (h : SQInv s) :
    SQInv (sqStep cfg s e) := by
  match e with
  | SQEvent.enq now sid t => exact SQInv_enqueueStep cfg now sid t s h
  | SQEvent.spawnResolved r => exact SQInv_spawnResolvedStep cfg r s h
  | SQEvent.backoffElapsed => exact SQInv_backoffElapsedStep cfg s h
  | SQEvent.delayElapsed now => exact SQInv_delayElapsedStep cfg now s h
  | SQEvent.shutdown => exact SQInv_shutdownStep s h

theorem SQInv_sqInit : SQInv sqInit := by
  intro sid
  refine ⟨?_, ?_⟩
  · show queueCount [] sid + suspCount Suspension.idle sid ≤ 1
    have h1 : queueCount [] sid = 0 := rfl
    rw [h1, suspCount_idle]
    omega
  · intro hc
    exfalso
    have h1 : queueCount [] sid = 0 := rfl
    unfold keyCount at hc
    rw [show sqInit.queue = [] from rfl, show sqInit.susp = Suspension.idle from rfl] at hc
    rw [h1, suspCount_idle] at hc
    omega

theorem SQInv_sqRun (cfg : SQConfig) (events : List SQEvent) : SQInv (sqRun cfg events) :=
  sqRun_induction SQInv cfg SQInv_sqInit (fun s e h => SQInv_sqStep cfg s e h) events

theorem loopHead_resolved_preserve (cfg : SQConfig) (now : Nat) :
    ∀ (fuel : Nat) (s : SQState) (pid : Nat) (r : SpawnResult),
      s.resolved.lookup pid = some r →
      (loopHead cfg now fuel s).resolved.lookup pid = some r := by
  intro fuel
  induction fuel with
  | zero =>
    intro s pid r h
    show List.lookup pid (exitLoop s).resolved = some r
    rw [(exitLoop_fields s).2.2.2.1]
    exact h
  | succ fuel ih =>
    intro s pid r h
    show List.lookup pid (match s.queue with
      | [] => exitLoop s
      | item :: rest =>
        if s.isShutdown then exitLoop s
        else
          let s2 := notifyQueueUpdate { s with queue := rest, hasItemInFlight := true }
          if now - item.enqueuedAt > cfg.staleThresholdMs then
            loopHead cfg now fuel (staleSkip item s2)
          else startAttempt item 0 s2).resolved = some r
    match hq : s.queue with
    | [] =>
      show List.lookup pid (exitLoop s).resolved = some r
      rw [(exitLoop_fields s).2.2.2.1]
      exact h
    | item :: rest =>
      dsimp only
      by_cases hsd : s.isShutdown
      · rw [if_pos hsd, (exitLoop_fields s).2.2.2.1]
        exact h
      · rw [if_neg hsd]
        by_cases hstale : now - item.enqueuedAt > cfg.staleThresholdMs
        · rw [if_pos hstale]
          apply ih
          show (resolvePromise _ item.promiseId ⟨false, none⟩).lookup pid = some r
          exact resolvePromise_preserve _ _ _ _ _ h
        · rw [if_neg hstale]
          exact h

theorem sqStep_resolved_preserve (cfg : SQConfig) (s : SQState) (e : SQEvent) (pid : Nat)
    (r : SpawnResult) (h : s.resolved.lookup pid = some r) :
    (sqStep cfg s e).resolved.lookup pid = some r := by
  match e with
  | SQEvent.enq now sid t =>
    show (enqueueStep cfg now sid t s).1.resolved.lookup pid = some r
    unfold enqueueStep
    dsimp only
    split_ifs with hsd
    · exact resolvePromise_preserve _ _ _ _ _ h
    · match hx : s.pending.lookup sid with
      | some pid2 => exact h
      | none =>
        dsimp only
        unfold processQueueStart
        split_ifs with hpr
        · exact h
        · exact loopHead_resolved_preserve cfg now _ _ pid r h
  | SQEvent.spawnResolved r2 =>
    show (spawnResolvedStep cfg r2 s).resolved.lookup pid = some r
    unfold spawnResolvedStep
    match hsusp : s.susp with
    | Suspension.idle => exact h
    | Suspension.awaitingDelay => exact h
    | Suspension.awaitingBackoff item rc lr => exact h
    | Suspension.awaitingSpawn item rc =>
      dsimp only
      split_ifs with h1 h2
      · rw [(finishItem_fields item r2 s).2.2.2.1]
        exact resolvePromise_preserve _ _ _ _ _ h
      · exact h
      · rw [(finishItem_fields item r2 s).2.2.2.1]
        exact resolvePromise_preserve _ _ _ _ _ h
  | SQEvent.backoffElapsed =>
    show (backoffElapsedStep cfg s).resolved.lookup pid = some r
    unfold backoffElapsedStep
    match hsusp : s.susp with
    | Suspension.idle => exact h
    | Suspension.awaitingDelay => exact h
    | Suspension.awaitingSpawn item rc => exact h
    | Suspension.awaitingBackoff item rc lr =>
      dsimp only
      split_ifs with h1
      · exact h
      · rw [(finishItem_fields item lr s).2.2.2.1]
        exact resolvePromise_preserve _ _ _ _ _ h
  | SQEvent.delayElapsed now =>
    show (delayElapsedStep cfg now s).resolved.lookup pid = some r
    unfold delayElapsedStep
    match hsusp : s.susp with
    | Suspension.idle => exact h
    | Suspension.awaitingSpawn item rc => exact h
    | Suspension.awaitingBackoff item rc lr => exact h
    | Suspension.awaitingDelay =>
      exact loopHead_resolved_preserve cfg now _ _ pid r h
  | SQEvent.shutdown =>
    show (shutdownStep s).resolved.lookup pid = some r
    unfold shutdownStep
    split_ifs with hsd
    · exact h
    · dsimp only
      unfold notifyQueueUpdate
      dsimp only
      exact shutdownDrain_resolved_preserve s.queue _ pid r h

theorem sqRun_append (cfg : SQConfig) (evs extra : List SQEvent) :
    sqRun cfg (evs ++ extra) = extra.foldl (sqStep cfg) (sqRun cfg evs) := by
  unfold sqRun
  rw [List.foldl_append]

theorem foldl_resolved_preserve (cfg : SQConfig) (extra : List SQEvent) :
    ∀ (s : SQState) (pid : Nat) (r : SpawnResult), s.resolved.lookup pid = some r →
      (extra.foldl (sqStep cfg) s).resolved.lookup pid = some r := by
  induction extra with
  | nil => intro s pid r h; exact h
  | cons e rest ih =>
    intro s pid r h
    exact ih (sqStep cfg s e) pid r (sqStep_resolved_preserve cfg s e pid r h)

/-- Counterexample to C1 as stated.  Two enqueues of the same sessionId
while its result is pending are coalesced onto one promise (promise 0,
returned to both callers) and both observe the identical result, yet the
work function executes twice for that key: the first attempt fails and
the retry policy invokes `spawnFn` a second time. -/
theorem claim_C1_counterexample :
    (sqRun {} [SQEvent.enq 0 "s1" "T1", SQEvent.enq 5 "s1" "T1",
      SQEvent.spawnResolved ⟨false, none⟩, SQEvent.backoffElapsed,
      SQEvent.spawnResolved ⟨true, some "%1"⟩]).enqueueReturns
      = [("s1", 0), ("s1", 0)] ∧
    ((sqRun {} [SQEvent.enq 0 "s1" "T1", SQEvent.enq 5 "s1" "T1",
      SQEvent.spawnResolved ⟨false, none⟩, SQEvent.backoffElapsed,
      SQEvent.spawnResolved ⟨true, some "%1"⟩]).spawnStarts.filter
        (fun rq => rq.sessionId = "s1")).length = 2 ∧
    (sqRun {} [SQEvent.enq 0 "s1" "T1", SQEvent.enq 5 "s1" "T1",
      SQEvent.spawnResolved ⟨false, none⟩, SQEvent.backoffElapsed,
      SQEvent.spawnResolved ⟨true, some "%1"⟩]).resolved.lookup 0
      = some ⟨true, some "%1"⟩ ∧ (2 : Nat) ≠ 1 := by
  exact ⟨by decide, by decide, by decide, by decide⟩

/-- C1 (amended).  Duplicate enqueues of a sessionId whose result is
still pending are coalesced: they return the promise already stored in
the pending map and change nothing but the call log — no new queue item,
no new promise, no spawn attempt.  At most one queue entry or in-flight
slot ever holds a given sessionId, and a promise, once resolved, keeps
its value forever, so every caller holding it observes the identical
result.  (Within the single processing episode of a key the work
function may still run up to maxRetries + 1 times — or zero times, when
the item is skipped as stale or shut down — so "exactly once per key"
does not hold of the work function itself.) -/
theorem claim_C1_coalescing (cfg : SQConfig) :
    (∀ (now : Nat) (sid title : String) (s : SQState) (pid : Nat),
      s.isShutdown = false → s.pending.lookup sid = some pid →
      enqueueStep cfg now sid title s
        = ({ s with enqueueReturns := s.enqueueReturns ++ [(sid, pid)] }, pid)) ∧
    (∀ (events : List SQEvent) (sid : String), keyCount (sqRun cfg events) sid ≤ 1) ∧
    (∀ (events extra : List SQEvent) (pid : Nat) (r : SpawnResult),
      (sqRun cfg events).resolved.lookup pid = some r →
      (sqRun cfg (events ++ extra)).resolved.lookup pid = some r) := by
  refine ⟨?_, ?_, ?_⟩
  · intro now sid title s pid hsd hp
    unfold enqueueStep
    rw [if_neg (by rw [hsd]; exact Bool.false_ne_true), hp]
  · intro events sid
    exact (SQInv_sqRun cfg events sid).1
  · intro events extra pid r h
    rw [sqRun_append]
    exact foldl_resolved_preserve cfg extra _ pid r h

/-- Witness for the amended C1: the second enqueue of s1 coalesces onto
promise 0 with the state unchanged, and the key-multiplicity bound and
resolution stability hold on the concrete counterexample trace. -/
theorem claim_C1_witness :
    enqueueStep {} 5 "s1" "T1" (sqRun {} [SQEvent.enq 0 "s1" "T1"])
      = ({ (sqRun {} [SQEvent.enq 0 "s1" "T1"]) with
            enqueueReturns := (sqRun {} [SQEvent.enq 0 "s1" "T1"]).enqueueReturns
              ++ [("s1", 0)] }, 0) ∧
    keyCount (sqRun {} [SQEvent.enq 0 "s1" "T1", SQEvent.enq 5 "s1" "T1"]) "s1" ≤ 1 ∧
    (sqRun {} ([SQEvent.enq 0 "s1" "T1", SQEvent.spawnResolved ⟨true, some "%1"⟩]
        ++ [SQEvent.enq 9 "s2" "T2"])).resolved.lookup 0 = some ⟨true, some "%1"⟩ :=
  ⟨(claim_C1_coalescing ({} : SQConfig)).1 5 "s1" "T1"
      (sqRun {} [SQEvent.enq 0 "s1" "T1"]) 0 (by decide) (by decide),
   (claim_C1_coalescing ({} : SQConfig)).2.1 [SQEvent.enq 0 "s1" "T1",
      SQEvent.enq 5 "s1" "T1"] "s1",
   (claim_C1_coalescing ({} : SQConfig)).2.2
      [SQEvent.enq 0 "s1" "T1", SQEvent.spawnResolved ⟨true, some "%1"⟩]
      [SQEvent.enq 9 "s2" "T2"] 0 ⟨true, some "%1"⟩ (by decide)⟩

/-- C5.  Shutdown resolves every queued (not-yet-started) item
immediately as failure and empties the queue; every subsequent enqueue
resolves immediately as failure without invoking the work function; and
an item in flight at shutdown time still has its eventual result
delivered to its caller when its spawn attempt settles. -/
theorem claim_C5_shutdown (cfg : SQConfig) :
    (∀ s : SQState, s.isShutdown = false →
      (shutdownStep s).queue = [] ∧ (shutdownStep s).isShutdown = true ∧
      (∀ item ∈ s.queue, s.resolved.lookup item.promiseId = none →
        (shutdownStep s).resolved.lookup item.promiseId = some ⟨false, none⟩)) ∧
    (∀ (now : Nat) (sid title : String) (s : SQState), s.isShutdown = true →
      s.resolved.lookup s.nextPromiseId = none →
      (enqueueStep cfg now sid title s).1.spawnStarts = s.spawnStarts ∧
      (enqueueStep cfg now sid title s).1.queue = s.queue ∧
      (enqueueStep cfg now sid title s).1.resolved.lookup
        (enqueueStep cfg now sid title s).2 = some ⟨false, none⟩) ∧
    (∀ (s : SQState) (item : QueueItem) (rc : Nat) (r : SpawnResult),
      s.susp = Suspension.awaitingSpawn item rc → s.isShutdown = true →
      s.resolved.lookup item.promiseId = none →
      (spawnResolvedStep cfg r s).resolved.lookup item.promiseId = some r) := by
  refine ⟨?_, ?_, ?_⟩
  · intro s hsd
    unfold shutdownStep
    rw [if_neg (by rw [hsd]; exact Bool.false_ne_true)]
    dsimp only
    obtain ⟨fq, -, -, fsd⟩ :=
      shutdownDrain_fields s.queue { s with isShutdown := true, queue := [] }
    refine ⟨?_, ?_, ?_⟩
    · show (s.queue.foldl shutdownDrainItem
        { s with isShutdown := true, queue := [] }).queue = []
      rw [fq]
    · show (s.queue.foldl shutdownDrainItem
        { s with isShutdown := true, queue := [] }).isShutdown = true
      rw [fsd]
    · intro item hmem hnone
      show (s.queue.foldl shutdownDrainItem
        { s with isShutdown := true, queue := [] }).resolved.lookup item.promiseId
          = some ⟨false, none⟩
      exact shutdownDrain_resolves s.queue _ item hmem (Or.inl hnone)
  · intro now sid title s hsd hfresh
    unfold enqueueStep
    rw [if_pos hsd]
    exact ⟨rfl, rfl, resolvePromise_fresh _ _ _ hfresh⟩
  · intro s item rc r hsusp hsd hnone
    unfold spawnResolvedStep
    rw [hsusp]
    dsimp only
    by_cases hrs : r.success = true
    · rw [if_pos hrs, (finishItem_fields item r s).2.2.2.1]
      exact resolvePromise_fresh _ _ _ hnone
    · rw [if_neg hrs, if_neg (by rw [hsd]; simp), (finishItem_fields item r s).2.2.2.1]
      exact resolvePromise_fresh _ _ _ hnone

/-- Witness for C5 at the scenario of the specification: one item in
flight (s1, promise 0) and two queued (s2 and s3, promises 1 and 2) at
shutdown time. -/
theorem claim_C5_witness :
    (shutdownStep (sqRun {} [SQEvent.enq 0 "s1" "T1", SQEvent.enq 0 "s2" "T2",
        SQEvent.enq 0 "s3" "T3"])).resolved.lookup 1 = some ⟨false, none⟩ ∧
    (shutdownStep (sqRun {} [SQEvent.enq 0 "s1" "T1", SQEvent.enq 0 "s2" "T2",
        SQEvent.enq 0 "s3" "T3"])).resolved.lookup 2 = some ⟨false, none⟩ ∧
    (enqueueStep {} 7 "s4" "T4" (shutdownStep (sqRun {} [SQEvent.enq 0 "s1" "T1",
        SQEvent.enq 0 "s2" "T2", SQEvent.enq 0 "s3" "T3"]))).1.spawnStarts
      = (shutdownStep (sqRun {} [SQEvent.enq 0 "s1" "T1", SQEvent.enq 0 "s2" "T2",
        SQEvent.enq 0 "s3" "T3"])).spawnStarts ∧
    (spawnResolvedStep {} ⟨true, some "%9"⟩ (shutdownStep (sqRun {}
        [SQEvent.enq 0 "s1" "T1", SQEvent.enq 0 "s2" "T2",
         SQEvent.enq 0 "s3" "T3"]))).resolved.lookup 0 = some ⟨true, some "%9"⟩ := by
  refine ⟨?_, ?_, ?_, ?_⟩
  · exact ((claim_C5_shutdown {}).1 _ (by decide)).2.2 ⟨"s2", "T2", 0, 1⟩
      (by decide) (by decide)
  · exact ((claim_C5_shutdown {}).1 _ (by decide)).2.2 ⟨"s3", "T3", 0, 2⟩
      (by decide) (by decide)
  · exact ((claim_C5_shutdown {}).2.1 7 "s4" "T4" _ (by decide) (by decide)).1
  · exact (claim_C5_shutdown {}).2.2 _ ⟨"s1", "T1", 0, 0⟩ 0 ⟨true, some "%9"⟩
      (by decide) (by decide) (by decide)

/-- Counterexample to C8 as stated.  After a single enqueue the second
`onQueueUpdate` notification fires with argument 0 (the queue is empty)
while the item is in flight, so getPendingCount() — queue length plus
the in-flight flag — is 1 at that moment: the notification does not
report queue length + in-flight flag. -/
theorem claim_C8_counterexample :
    (sqRun {} [SQEvent.enq 0 "s1" "T1"]).updates = [(1, 1), (0, 1)] ∧
    ((0, 1) ∈ (sqRun {} [SQEvent.enq 0 "s1" "T1"]).updates) ∧ (0 : Nat) ≠ 1 := by
  exact ⟨by decide, by decide, by decide⟩

/-- The set of update-log entries is well formed: the ghost pending
count recorded with each notification exceeds the reported argument by
the in-flight flag at the moment of the call. -/
def GoodUpdates (s : SQState) : Prop :=
  ∀ u ∈ s.updates, u.2 = u.1 ∨ u.2 = u.1 + 1

theorem GoodUpdates_notify (s : SQState) (h : GoodUpdates s) :
    GoodUpdates (notifyQueueUpdate s) := by
  intro u hu
  unfold notifyQueueUpdate at hu
  have hm : u ∈ s.updates ++ [(s.queue.length, getPendingCount s)] := hu
  rcases List.mem_append.mp hm with hc | hc
  · exact h u hc
  · have he : u = (s.queue.length, getPendingCount s) := by
      rcases List.mem_cons.mp hc with h1 | h1
      · exact h1
      · cases h1
    subst he
    unfold getPendingCount
    by_cases hf : s.hasItemInFlight = true
    · rw [if_pos hf]
      exact Or.inr rfl
    · rw [if_neg hf]
      exact Or.inl rfl

theorem notifyQueueDrained_updates (t : SQState) :
    (notifyQueueDrained t).updates = t.updates := by
  unfold notifyQueueDrained
  split_ifs <;> rfl

theorem GoodUpdates_exitLoop (s : SQState) (h : GoodUpdates s) :
    GoodUpdates (exitLoop s) := by
  intro u hu
  unfold exitLoop at hu
  dsimp only at hu
  have hu2 : u ∈ (notifyQueueDrained (notifyQueueUpdate s)).updates := hu
  rw [notifyQueueDrained_updates] at hu2
  exact GoodUpdates_notify s h u hu2

theorem GoodUpdates_finishItem (item : QueueItem) (r : SpawnResult) (s : SQState)
    (h : GoodUpdates s) : GoodUpdates (finishItem item r s) := by
  unfold finishItem
  dsimp only
  split_ifs with hc
  · exact h
  · exact GoodUpdates_exitLoop _ h

theorem GoodUpdates_loopHead (cfg : SQConfig) (now : Nat) :
    ∀ (fuel : Nat) (s : SQState), GoodUpdates s → GoodUpdates (loopHead cfg now fuel s) := by
  intro fuel
  induction fuel with
  | zero => intro s h; exact GoodUpdates_exitLoop s h
  | succ fuel ih =>
    intro s h
    show GoodUpdates (match s.queue with
      | [] => exitLoop s
      | item :: rest =>
        if s.isShutdown then exitLoop s
        else
          let s2 := notifyQueueUpdate { s with queue := rest, hasItemInFlight := true }
          if now - item.enqueuedAt > cfg.staleThresholdMs then
            loopHead cfg now fuel (staleSkip item s2)
          else startAttempt item 0 s2)
    match hq : s.queue with
    | [] => exact GoodUpdates_exitLoop s h
    | item :: rest =>
      dsimp only
      by_cases hsd : s.isShutdown
      · rw [if_pos hsd]
        exact GoodUpdates_exitLoop s h
      · rw [if_neg hsd]
        have h2 : GoodUpdates (notifyQueueUpdate
            { s with queue := rest, hasItemInFlight := true }) :=
          GoodUpdates_notify _ (fun u hu => h u hu)
        by_cases hstale : now - item.enqueuedAt > cfg.staleThresholdMs
        · rw [if_pos hstale]
          exact ih _ (fun u hu => h2 u hu)
        · rw [if_neg hstale]
          exact fun u hu => h2 u hu

theorem GoodUpdates_sqStep (cfg : SQConfig) (s : SQState) (e : SQEvent)
    (h : GoodUpdates s) : GoodUpdates (sqStep cfg s e) := by
  match e with
  | SQEvent.enq now sid t =>
    show GoodUpdates (enqueueStep cfg now sid t s).1
    unfold enqueueStep
    dsimp only
    split_ifs with hsd
    · exact h
    · match hx : s.pending.lookup sid with
      | some pid => exact h
      | none =>
        dsimp only
        unfold processQueueStart
        split_ifs with hpr
        · exact GoodUpdates_notify _ h
        · exact GoodUpdates_loopHead cfg now _ _ (GoodUpdates_notify _ h)
  | SQEvent.spawnResolved r2 =>
    show GoodUpdates (spawnResolvedStep cfg r2 s)
    unfold spawnResolvedStep
    match hsusp : s.susp with
    | Suspension.idle => exact h
    | Suspension.awaitingDelay => exact h
    | Suspension.awaitingBackoff item rc lr => exact h
    | Suspension.awaitingSpawn item rc =>
      dsimp only
      split_ifs with h1 h2
      · exact GoodUpdates_finishItem item r2 s h
      · exact h
      · exact GoodUpdates_finishItem item r2 s h
  | SQEvent.backoffElapsed =>
    show GoodUpdates (backoffElapsedStep cfg s)
    unfold backoffElapsedStep
    match hsusp : s.susp with
    | Suspension.idle => exact h
    | Suspension.awaitingDelay => exact h
    | Suspension.awaitingSpawn item rc => exact h
    | Suspension.awaitingBackoff item rc lr =>
      dsimp only
      split_ifs with h1
      · exact h
      · exact GoodUpdates_finishItem item lr s h
  | SQEvent.delayElapsed now =>
    show GoodUpdates (delayElapsedStep cfg now s)
    unfold delayElapsedStep
    match hsusp : s.susp with
    | Suspension.idle => exact h
    | Suspension.awaitingSpawn item rc => exact h
    | Suspension.awaitingBackoff item rc lr => exact h
    | Suspension.awaitingDelay =>
      exact GoodUpdates_loopHead cfg now _ _ (fun u hu => h u hu)
  | SQEvent.shutdown =>
    show GoodUpdates (shutdownStep s)
    unfold shutdownStep
    split_ifs with hsd
    · exact h
    · dsimp only
      apply GoodUpdates_notify
      have hupd : ∀ (items : List QueueItem) (t : SQState),
          (items.foldl shutdownDrainItem t).updates = t.updates := by
        intro items
        induction items with
        | nil => intro t; rfl
        | cons hd tl ih2 => intro t; exact ih2 (shutdownDrainItem t hd)
      intro u hu
      rw [hupd s.queue { s with isShutdown := true, queue := [] }] at hu
      exact h u hu

/-- C8 (amended).  `getPendingCount()` is the queue length plus the
in-flight flag, but the pending-count notification passes
`this.queue.length` only: at every notification the recorded pending
count equals the reported argument plus the in-flight flag (0 or 1), so
the notification under-reports by exactly one whenever an item is in
flight at the moment of the call. -/
theorem claim_C8_notification_amended (cfg : SQConfig) :
    (∀ s : SQState, getPendingCount s
        = s.queue.length + (if s.hasItemInFlight then 1 else 0)) ∧
    (∀ events : List SQEvent, ∀ u ∈ (sqRun cfg events).updates,
      u.2 = u.1 ∨ u.2 = u.1 + 1) := by
  refine ⟨fun s => rfl, ?_⟩
  intro events
  exact sqRun_induction GoodUpdates cfg (fun u hu => by cases hu)
    (fun s e h => GoodUpdates_sqStep cfg s e h) events

/-- Witness for the amended C8 on the single-enqueue trace: the second
notification reported 0 with one item in flight, pending count 1. -/
theorem claim_C8_witness :
    getPendingCount (sqRun {} [SQEvent.enq 0 "s1" "T1"])
      = (sqRun {} [SQEvent.enq 0 "s1" "T1"]).queue.length
        + (if (sqRun {} [SQEvent.enq 0 "s1" "T1"]).hasItemInFlight then 1 else 0) ∧
    ((1 : Nat) = 0 ∨ (1 : Nat) = 0 + 1) :=
  ⟨(claim_C8_notification_amended ({} : SQConfig)).1 (sqRun {} [SQEvent.enq 0 "s1" "T1"]),
   (claim_C8_notification_amended ({} : SQConfig)).2 [SQEvent.enq 0 "s1" "T1"]
     (0, 1) (by decide)⟩

/-! ## Reaper properties (claims C6, C7) -/

theorem lookup_cons_self_g {α β : Type} [BEq α] [LawfulBEq α] (m : List (α × β)) (k : α)
    (v : β) : (((k, v) :: m).lookup k) = some v := by
  simp [List.lookup]

theorem lookup_cons_ne_g {α β : Type} [BEq α] [LawfulBEq α] (m : List (α × β)) (k k2 : α)
    (v : β) (h : k2 ≠ k) : (((k, v) :: m).lookup k2) = m.lookup k2 := by
  simp [List.lookup, beq_eq_false_iff_ne.mpr h]

theorem lookup_map_update (cands : List (Nat × ZombieCandidate)) (pid : Nat)
    (newc : ZombieCandidate) (c : ZombieCandidate) (hx : cands.lookup pid = some c) :
    (cands.map (fun kv => if kv.1 = pid then (pid, newc) else kv)).lookup pid
      = some newc := by
  induction cands with
  | nil => cases hx
  | cons kv rest ih =>
    obtain ⟨k, v⟩ := kv
    rw [List.map_cons]
    by_cases hk : k = pid
    · subst hk
      rw [if_pos (show ((k, v) : Nat × ZombieCandidate).1 = k from rfl)]
      exact lookup_cons_self_g _ _ _
    · have hne : pid ≠ k := fun he => hk he.symm
      rw [if_neg (show ¬((k, v) : Nat × ZombieCandidate).1 = pid from hk)]
      rw [lookup_cons_ne_g _ _ _ _ hne]
      apply ih
      rw [lookup_cons_ne_g _ _ _ _ hne] at hx
      exact hx

theorem markAsZombie_lookup (cands : List (Nat × ZombieCandidate)) (pid : Nat) (now : Int) :
    (markAsZombie cands pid now).lookup pid
      = some (match cands.lookup pid with
              | some c => ⟨c.count + 1, c.firstDetectedAt⟩
              | none => ⟨1, now⟩) := by
  unfold markAsZombie
  match hx : cands.lookup pid with
  | none => exact lookup_cons_self_g cands pid _
  | some c => exact lookup_map_update cands pid _ c hx

/-- A well-formed decision entry: the kill flag is set exactly when the
candidate recorded with it met both thresholds. -/
def decisionGood (opts : ReaperOptions) (now : Int) (d : Nat × ZombieCandidate × Bool) :
    Prop :=
  d.2.2 = true ↔ (opts.minZombieChecks ≤ d.2.1.count ∧
    opts.gracePeriodMs ≤ now - d.2.1.firstDetectedAt)

theorem scanFold_invariant (opts : ReaperOptions) (act : List Json) (now : Int) :
    ∀ (procs : List AttachProcess) (acc : ScanAcc),
      (∀ d ∈ acc.decisions, decisionGood opts now d) →
      acc.killed = (acc.decisions.filter (fun d => d.2.2)).map (fun d => d.1) →
      (∀ d ∈ (procs.foldl (scanProcessStep opts act now) acc).decisions,
        decisionGood opts now d) ∧
      (procs.foldl (scanProcessStep opts act now) acc).killed
        = ((procs.foldl (scanProcessStep opts act now) acc).decisions.filter
            (fun d => d.2.2)).map (fun d => d.1) := by
  intro procs
  induction procs with
  | nil => intro acc h1 h2; exact ⟨h1, h2⟩
  | cons proc rest ih =>
    intro acc h1 h2
    rw [List.foldl_cons]
    apply ih
    · intro d hd
      unfold scanProcessStep at hd
      split_ifs at hd with hact
      · exact h1 d hd
      · set cands := markAsZombie acc.candidates proc.pid now with hcands
        obtain ⟨c, hc⟩ : ∃ c, cands.lookup proc.pid = some c :=
          ⟨_, markAsZombie_lookup acc.candidates proc.pid now⟩
        have hgetD : (cands.lookup proc.pid).getD ⟨0, 0⟩ = c := by rw [hc]; rfl
        by_cases hsk : shouldKill opts cands proc.pid now = true
        · rw [if_pos hsk] at hd
          dsimp only at hd
          rcases List.mem_append.mp hd with hold | hnew
          · exact h1 d hold
          · have he : d = (proc.pid, (cands.lookup proc.pid).getD ⟨0, 0⟩, true) := by
              rcases List.mem_cons.mp hnew with h | h
              · exact h
              · cases h
            subst he
            unfold decisionGood
            dsimp only
            unfold shouldKill at hsk
            rw [hc] at hsk
            rw [hgetD]
            simp only [decide_eq_true_eq] at hsk
            exact ⟨fun _ => hsk, fun _ => rfl⟩
        · rw [if_neg hsk] at hd
          dsimp only at hd
          rcases List.mem_append.mp hd with hold | hnew
          · exact h1 d hold
          · have he : d = (proc.pid, (cands.lookup proc.pid).getD ⟨0, 0⟩, false) := by
              rcases List.mem_cons.mp hnew with h | h
              · exact h
              · cases h
            subst he
            unfold decisionGood
            dsimp only
            unfold shouldKill at hsk
            rw [hc] at hsk
            rw [hgetD]
            simp only [decide_eq_true_eq] at hsk
            exact ⟨fun hcon => absurd hcon Bool.false_ne_true,
              fun hcond => absurd hcond hsk⟩
    · unfold scanProcessStep
      split_ifs with hact
      · exact h2
      · by_cases hsk : shouldKill opts (markAsZombie acc.candidates proc.pid now)
            proc.pid now = true
        · rw [if_pos hsk]
          dsimp only
          rw [List.filter_append, List.map_append, h2]
          rw [show (List.filter (fun d => d.2.2)
              [(proc.pid, ((markAsZombie acc.candidates proc.pid now).lookup
                proc.pid).getD ⟨0, 0⟩, true)])
              = [(proc.pid, ((markAsZombie acc.candidates proc.pid now).lookup
                proc.pid).getD ⟨0, 0⟩, true)] from by simp]
          rfl
        · rw [if_neg hsk]
          dsimp only
          rw [List.filter_append, List.map_append, h2]
          rw [show (List.filter (fun d => d.2.2)
              [(proc.pid, ((markAsZombie acc.candidates proc.pid now).lookup
                proc.pid).getD ⟨0, 0⟩, false)]) = [] from by simp]
          rw [List.map_nil, List.append_nil]

/-- C7.  In a continuous-mode scan a process is reaped only when both
conditions hold for its candidate record at decision time — at least
`minZombieChecks` zombie observations AND at least `gracePeriodMs`
elapsed since first detection; a process failing either condition is
logged with a false kill flag and is not among the reaped pids. -/
theorem claim_C7_kill_requires_both_thresholds (serverUrl : String)
    (urlEq : Option String → String → Bool) (opts : ReaperOptions) (st : ReaperState)
    (inp : ScanInput) :
    (∀ d ∈ (scanOnce serverUrl urlEq opts st inp).decisions,
      d.2.2 = true ↔ (opts.minZombieChecks ≤ d.2.1.count ∧
        opts.gracePeriodMs ≤ inp.now - d.2.1.firstDetectedAt)) ∧
    (scanOnce serverUrl urlEq opts st inp).killed
      = ((scanOnce serverUrl urlEq opts st inp).decisions.filter
          (fun d => d.2.2)).map (fun d => d.1) := by
  unfold scanOnce
  by_cases h1 : inp.processes = []
  · rw [if_pos h1]
    exact ⟨(fun d hd => nomatch hd), rfl⟩
  · rw [if_neg h1]
    dsimp only
    by_cases h2 : inp.processes.filter (fun p => urlEq p.targetUrl serverUrl) = []
    · rw [if_pos h2]
      split_ifs with h3
      · exact ⟨(fun d hd => nomatch hd), rfl⟩
      · exact ⟨(fun d hd => nomatch hd), rfl⟩
    · rw [if_neg h2]
      match hf : fetchActiveSessions inp.response with
      | none => exact ⟨(fun d hd => nomatch hd), rfl⟩
      | some act =>
        dsimp only
        obtain ⟨g1, g2⟩ := scanFold_invariant opts act inp.now
          (inp.processes.filter (fun p => urlEq p.targetUrl serverUrl))
          ⟨st.candidates, [], []⟩ (fun d hd => nomatch hd) rfl
        exact ⟨g1, g2⟩

/-- Witness for C7: a single zombie process whose candidate
(count 1, first detected now) meets the thresholds 1 check / 0 ms, so
it is reaped in the same scan. -/
theorem claim_C7_witness :
    (∀ d ∈ (scanOnce "u" (fun _ _ => true) ⟨1, 0, false, none⟩ ⟨[], 0⟩
        ⟨[⟨42, "ses_a", some "u"⟩], some (Json.obj [("data", Json.obj [])]), 100⟩).decisions,
      d.2.2 = true ↔ ((1 : Nat) ≤ d.2.1.count ∧
        (0 : Int) ≤ 100 - d.2.1.firstDetectedAt)) ∧
    (scanOnce "u" (fun _ _ => true) ⟨1, 0, false, none⟩ ⟨[], 0⟩
        ⟨[⟨42, "ses_a", some "u"⟩], some (Json.obj [("data", Json.obj [])]), 100⟩).killed
      = ((scanOnce "u" (fun _ _ => true) ⟨1, 0, false, none⟩ ⟨[], 0⟩
          ⟨[⟨42, "ses_a", some "u"⟩], some (Json.obj [("data", Json.obj [])]),
            100⟩).decisions.filter (fun d => d.2.2)).map (fun d => d.1) :=
  claim_C7_kill_requires_both_thresholds "u" (fun _ _ => true) ⟨1, 0, false, none⟩
    ⟨[], 0⟩ ⟨[⟨42, "ses_a", some "u"⟩], some (Json.obj [("data", Json.obj [])]), 100⟩

/-- C6.  If the session-status response of a continuous-mode scan
cannot be parsed into a definite session set (`fetchActiveSessions`
returns null), the scan is aborted: nothing is reaped and, when the
scan had processes to classify, the candidate map is left untouched;
over any sequence of scans that all fail to parse, zero processes are
ever reaped. -/
theorem claim_C6_unparseable_aborts_scan (serverUrl : String)
    (urlEq : Option String → String → Bool) (opts : ReaperOptions) :
    (∀ (st : ReaperState) (inp : ScanInput), fetchActiveSessions inp.response = none →
      (scanOnce serverUrl urlEq opts st inp).killed = [] ∧
      (inp.processes ≠ [] →
        inp.processes.filter (fun p => urlEq p.targetUrl serverUrl) ≠ [] →
        (scanOnce serverUrl urlEq opts st inp).state.candidates = st.candidates)) ∧
    (∀ (st : ReaperState) (inps : List ScanInput),
      (∀ inp ∈ inps, fetchActiveSessions inp.response = none) →
      (runScans serverUrl urlEq opts st inps).2 = []) := by
  have hone : ∀ (st : ReaperState) (inp : ScanInput),
      fetchActiveSessions inp.response = none →
      (scanOnce serverUrl urlEq opts st inp).killed = [] ∧
      (inp.processes ≠ [] →
        inp.processes.filter (fun p => urlEq p.targetUrl serverUrl) ≠ [] →
        (scanOnce serverUrl urlEq opts st inp).state.candidates = st.candidates) := by
    intro st inp hf
    unfold scanOnce
    by_cases h1 : inp.processes = []
    · rw [if_pos h1]
      exact ⟨rfl, fun hp => absurd h1 hp⟩
    · rw [if_neg h1]
      dsimp only
      by_cases h2 : inp.processes.filter (fun p => urlEq p.targetUrl serverUrl) = []
      · rw [if_pos h2]
        split_ifs with h3
        · exact ⟨rfl, fun hp hm => absurd h2 hm⟩
        · exact ⟨rfl, fun hp hm => absurd h2 hm⟩
      · rw [if_neg h2]
        rw [hf]
        exact ⟨rfl, fun _ _ => rfl⟩
  refine ⟨hone, ?_⟩
  intro st inps
  induction inps generalizing st with
  | nil => intro _; rfl
  | cons inp rest ih =>
    intro hall
    unfold runScans
    dsimp only
    rw [(hone st inp (hall inp (List.mem_cons_self inp rest))).1]
    rw [ih _ (fun i hi => hall i (List.mem_cons_of_mem inp hi))]
    rfl

/-- Witness for C6: two scans of the same process, one network failure
and one malformed (non-object) payload — nothing is reaped. -/
theorem claim_C6_witness :
    (runScans "u" (fun _ _ => true) ⟨2, 1000, false, none⟩ ⟨[], 0⟩
      [⟨[⟨42, "ses_a", some "u"⟩], none, 5⟩,
       ⟨[⟨42, "ses_a", some "u"⟩], some (Json.str "x"), 10⟩]).2 = [] := by
  apply (claim_C6_unparseable_aborts_scan "u" (fun _ _ => true) ⟨2, 1000, false, none⟩).2
  intro inp hinp
  rcases List.mem_cons.mp hinp with h | h
  · subst h
    rfl
  · rcases List.mem_cons.mp h with h2 | h2
    · subst h2
      rfl
    · cases h2

/-! ## Manager poll overlap (claim C9) -/

/-- Counterexample to C9 as stated: with one tracked session and the
interval timer armed, two consecutive timer fires with no settling in
between leave two polls in progress concurrently — `pollSessions` has no
single-flight guard, so the trace property "never two polls in progress"
is false. -/
theorem claim_C9_counterexample :
    (mgrRun [MgrEvent.sessionCreated, MgrEvent.intervalFire,
      MgrEvent.intervalFire]).pollsInFlight = 2 ∧
    ¬(∀ events : List MgrEvent, (mgrRun events).pollsInFlight ≤ 1) := by
  refine ⟨by decide, fun h => ?_⟩
  exact absurd (h [MgrEvent.sessionCreated, MgrEvent.intervalFire, MgrEvent.intervalFire])
    (by decide)

/-- C9 (amended).  Poll cycles can overlap: the recurring interval timer
invokes `pollSessions` regardless of whether the previous liveness query
settled, so every fire with the timer armed and a nonempty session map
starts one more concurrent poll; a fire with the timer disarmed does
nothing. -/
theorem claim_C9_poll_overlap_amended :
    (∀ s : MgrState, s.timerOn = true → s.sessionsCount ≠ 0 →
      (mgrStep s MgrEvent.intervalFire).pollsInFlight = s.pollsInFlight + 1) ∧
    (∀ s : MgrState, s.timerOn = false → mgrStep s MgrEvent.intervalFire = s) := by
  constructor
  · intro s ht hs
    unfold mgrStep
    rw [if_neg (by rw [ht]; simp), if_neg hs]
  · intro s ht
    unfold mgrStep
    rw [if_pos (by rw [ht]; simp)]

/-- Witness for the amended C9: a fire while one poll is already in
flight yields two concurrent polls. -/
theorem claim_C9_witness :
    (mgrStep ⟨true, 1, 1⟩ MgrEvent.intervalFire).pollsInFlight = 1 + 1 ∧
    mgrStep ⟨false, 1, 1⟩ MgrEvent.intervalFire = ⟨false, 1, 1⟩ :=
  ⟨claim_C9_poll_overlap_amended.1 ⟨true, 1, 1⟩ rfl (by decide),
   claim_C9_poll_overlap_amended.2 ⟨false, 1, 1⟩ rfl⟩

end OpencodeTmux
